import Mathlib

/-!
Shallow embedding of the u-os-hub-client-rs library (a Rust client library
for a variable-oriented pub/sub data hub) together with proofs about its
variable catalogue fingerprint, provider worker, consumer-side write
validation, wire-type conversions, timestamp codec and subject naming.

Rust strings are embedded as lists of characters, machine integers as
`Nat`/`Int` with explicit reduction modulo `2 ^ 64` where the Rust code
relies on wrapping arithmetic, fallible operations as `Except`/`Option`,
and the ordered `BTreeMap<u32, Variable>` as an association list carrying
the map's iteration order.
-/

/-- A Rust string slice, embedded as its list of characters. -/
abbrev Str := List Char

/-- Characters of a Lean string literal, for concrete test inputs. -/
def str (s : String) : Str := s.data

/-! ### Timestamp codec (src/variable/value.rs)

A host timestamp (`time::UtcDateTime`) denotes an instant; we embed it as
the total number of nanoseconds since the Unix epoch (an unbounded `Int`;
the Rust representation is a same-sign seconds/nanoseconds pair obtained by
truncating division, which `Int.tdiv`/`Int.tmod` reproduce exactly). -/

/-- Wire timestamp `TimestampT { seconds: i64, nanos: i32 }`. -/
structure TimestampT where
  seconds : Int
  nanos : Int
deriving Repr, DecidableEq

/-- Embeds `impl From<TimestampValue> for TimestampT` (src/variable/value.rs,
lines 34-53): decompose the instant into whole seconds and subsecond
nanoseconds by truncating division (as `time::Duration::whole_seconds` /
`subsec_nanoseconds` do), then borrow one second when the nanoseconds are
negative so the wire form has nonneg nanoseconds. -/
def timestampToWire (x : Int) : TimestampT :=
  if x.tmod 1000000000 < 0 then
    { seconds := x.tdiv 1000000000 - 1, nanos := x.tmod 1000000000 + 1000000000 }
  else
    { seconds := x.tdiv 1000000000, nanos := x.tmod 1000000000 }

/-- Embeds `impl From<TimestampT> for TimestampValue` (src/variable/value.rs,
lines 28-32): `UNIX_EPOCH + Duration::new(seconds, nanos)`, i.e. the instant
`seconds * 10^9 + nanos` nanoseconds after the epoch. -/
def timestampFromWire (t : TimestampT) : Int :=
  t.seconds * 1000000000 + t.nanos

/-! ### Bytes and 64-bit machine arithmetic

The Rust hashers operate on `u64` state; we embed `u64` as `Nat` reduced
modulo `2 ^ 64` at every wrapping operation. -/

/-- Truncation to 64 bits, the effect of `u64` wrapping arithmetic. -/
def w64 (n : Nat) : Nat := n % 2 ^ 64

/-- `u64::rotate_left`: for `x < 2 ^ 64` the two shifted parts occupy
disjoint bit ranges, so their sum is their bitwise or; the result is again
a `u64`, hence the explicit reduction. -/
def rotl64 (x r : Nat) : Nat := w64 ((x * 2 ^ r) % 2 ^ 64 + x / 2 ^ (64 - r))

/-- Little-endian byte list of length `k` for `n`. -/
def leBytes : Nat → Nat → List Nat
  | 0, _ => []
  | k + 1, n => n % 256 :: leBytes k (n / 256)

/-- The four little-endian bytes a `Hasher::write_u32` call feeds in. -/
def u32le (n : Nat) : List Nat := leBytes 4 (n % 2 ^ 32)

/-- The eight little-endian bytes a `Hasher::write_u64`/`write_usize` call
feeds in. -/
def u64le (n : Nat) : List Nat := leBytes 8 (n % 2 ^ 64)

/-- Value of a little-endian byte list (bytes are taken mod 256). -/
def leWord : List Nat → Nat
  | [] => 0
  | b :: bs => b % 256 + 256 * leWord bs

/-- The byte `bool as u8` that `Hash for bool` writes. -/
def boolByte (b : Bool) : Nat := if b then 1 else 0

/-! ### SipHash-1-3 (`std::collections::hash_map::DefaultHasher`)

`DefaultHasher::default()` is `SipHasher13::new_with_keys(0, 0)`; the
byte stream of successive `write` calls is hashed as below. -/

/-- The four 64-bit words of SipHash state. -/
structure SipState where
  v0 : Nat
  v1 : Nat
  v2 : Nat
  v3 : Nat
deriving Repr, DecidableEq

/-- One SIPROUND. -/
def sipRound (s : SipState) : SipState :=
  let v0 := w64 (s.v0 + s.v1)
  let v1 := rotl64 s.v1 13
  let v1 := v1 ^^^ v0
  let v0 := rotl64 v0 32
  let v2 := w64 (s.v2 + s.v3)
  let v3 := rotl64 s.v3 16
  let v3 := v3 ^^^ v2
  let v0 := w64 (v0 + v3)
  let v3 := rotl64 v3 21
  let v3 := v3 ^^^ v0
  let v2 := w64 (v2 + v1)
  let v1 := rotl64 v1 17
  let v1 := v1 ^^^ v2
  let v2 := rotl64 v2 32
  ⟨v0, v1, v2, v3⟩

/-- Compression of one message word (one round in SipHash-1-3). -/
def sipCompress (s : SipState) (m : Nat) : SipState :=
  let s' := sipRound { s with v3 := s.v3 ^^^ m }
  { s' with v0 := s'.v0 ^^^ m }

/-- Initial state for keys `(0, 0)`: the bare SipHash constants. -/
def sipInit : SipState :=
  ⟨0x736f6d6570736575, 0x646f72616e646f6d, 0x6c7967656e657261, 0x7465646279746573⟩

/-- Process all complete 8-byte little-endian blocks; return the state and
the remaining tail of fewer than eight bytes. -/
def sipBlocks : SipState → List Nat → SipState × List Nat
  | s, b0 :: b1 :: b2 :: b3 :: b4 :: b5 :: b6 :: b7 :: rest =>
    sipBlocks (sipCompress s (leWord [b0, b1, b2, b3, b4, b5, b6, b7])) rest
  | s, rest => (s, rest)

/-- `DefaultHasher` over a complete byte stream: compress the 8-byte blocks,
then the final block `((len & 0xff) << 56) | tail`, xor `0xff` into `v2`,
run three finalization rounds and xor the four state words. -/
def siphash13 (bytes : List Nat) : Nat :=
  let st := sipBlocks sipInit bytes
  let b := bytes.length % 256 * 2 ^ 56 + leWord st.2
  let s := sipCompress st.1 b
  let s := { s with v2 := s.v2 ^^^ 0xff }
  let s := sipRound (sipRound (sipRound s))
  w64 (s.v0 ^^^ s.v1 ^^^ s.v2 ^^^ s.v3)

/-! ### UTF-8 and the `Hash for str` byte stream -/

/-- UTF-8 encoding of one character (scalar value `c.toNat`). -/
def utf8Char (c : Char) : List Nat :=
  if c.toNat < 0x80 then [c.toNat]
  else if c.toNat < 0x800 then [0xC0 + c.toNat / 64, 0x80 + c.toNat % 64]
  else if c.toNat < 0x10000 then
    [0xE0 + c.toNat / 4096, 0x80 + c.toNat / 64 % 64, 0x80 + c.toNat % 64]
  else
    [0xF0 + c.toNat / 262144, 0x80 + c.toNat / 4096 % 64,
      0x80 + c.toNat / 64 % 64, 0x80 + c.toNat % 64]

/-- UTF-8 encoding of a string. -/
def utf8 (s : Str) : List Nat := List.flatten (s.map utf8Char)

/-- The byte stream `Hash for str` feeds to a hasher: the UTF-8 bytes
followed by a single `0xff` terminator byte. -/
def strHashBytes (s : Str) : List Nat := utf8 s ++ [0xff]

/-! ### Variable model (src/variable/mod.rs, src/variable/value.rs) -/

/-- `VariableValue`. Float64 payloads are embedded as their raw IEEE-754 bit
pattern; timestamps as the instant in nanoseconds since the Unix epoch. -/
inductive Value where
  | int (v : Int)
  | boolean (b : Bool)
  | string (s : Str)
  | float64 (bits : Nat)
  | duration (seconds : Int) (nanos : Int)
  | timestamp (nanos : Int)
deriving Repr, DecidableEq

/-- `std::mem::discriminant` of a `VariableValue`: the `isize` discriminant
assigned in declaration order (`Int` = 0, ..., `Timestamp` = 5). -/
def Value.discr : Value → Nat
  | .int _ => 0
  | .boolean _ => 1
  | .string _ => 2
  | .float64 _ => 3
  | .duration _ _ => 4
  | .timestamp _ => 5

/-- `Variable` (src/variable/mod.rs, lines 19-32). -/
structure Variable where
  value : Value
  read_only : Bool
  key : Str
  id : Nat
  experimental : Bool
  last_value_change : Int
deriving Repr, DecidableEq

/-- Byte stream one iteration of the `calc_variables_hash` loop feeds to the
hasher: `key.hash`, `read_only.hash`, `id.hash` (`u32`, four bytes LE),
`experimental.hash`, `discriminant(value).hash` (`isize`, eight bytes LE). -/
def variableHashBytes (v : Variable) : List Nat :=
  strHashBytes v.key ++ [boolByte v.read_only] ++ u32le v.id ++
    [boolByte v.experimental] ++ u64le v.value.discr

/-- Embeds `calc_variables_hash` (src/variable/mod.rs, lines 84-94). The
`BTreeMap<u32, Variable>` is embedded as an association list carrying the
map's iteration order; `DefaultHasher` is SipHash-1-3 with zero keys. -/
def calc_variables_hash (vars : List (Nat × Variable)) : Nat :=
  siphash13 (List.flatten (vars.map fun p => variableHashBytes p.2))

/-! ### FxHasher (`rustc_hash::FxHasher`, used by src/consumer/variable_key.rs)

The rotate-xor-multiply scheme of the rustc-hash crate: each ingested word
rotates the state left by five, xors the word in and multiplies by the
seed, on wrapping `u64` arithmetic; the initial state is zero. -/

/-- One `FxHasher::add_to_hash` step. -/
def fxAdd (h i : Nat) : Nat := w64 ((rotl64 h 5 ^^^ i) * 0x517cc1b727220a95)

/-- `FxHasher::write`: ingest all complete 8-byte little-endian words, then
a 4-byte, a 2-byte and a 1-byte chunk of the remainder. -/
def fxWriteTail (h : Nat) (bs : List Nat) : Nat :=
  match bs with
  | b0 :: b1 :: b2 :: b3 :: rest =>
    fxWriteTail2 (fxAdd h (leWord [b0, b1, b2, b3])) rest
  | rest => fxWriteTail2 h rest
where
  fxWriteTail2 (h : Nat) (bs : List Nat) : Nat :=
    match bs with
    | b0 :: b1 :: rest => fxWriteTail1 (fxAdd h (leWord [b0, b1])) rest
    | rest => fxWriteTail1 h rest
  fxWriteTail1 (h : Nat) (bs : List Nat) : Nat :=
    match bs with
    | b0 :: _ => fxAdd h (b0 % 256)
    | [] => h

/-- `FxHasher::write` over a whole byte slice. -/
def fxWrite : Nat → List Nat → Nat
  | h, b0 :: b1 :: b2 :: b3 :: b4 :: b5 :: b6 :: b7 :: rest =>
    fxWrite (fxAdd h (leWord [b0, b1, b2, b3, b4, b5, b6, b7])) rest
  | h, rest => fxWriteTail h rest

/-- Embeds `impl From<&str> for VariableKey`
(src/consumer/variable_key.rs, lines 24-32): feed `Hash for str`'s byte
stream (UTF-8 bytes, then a `write_u8(0xff)` which `FxHasher` ingests as a
single word) into a fresh `FxHasher` and finish. -/
def variableKeyHash (s : Str) : Nat := fxAdd (fxWrite 0 (utf8 s)) 0xff

/-- The 64-bit hash the fingerprint computation applies to a lone key
string: `DefaultHasher::default()` fed with `Hash for str`'s byte stream,
as in the loop of `calc_variables_hash` (src/variable/mod.rs, line 87). -/
def fingerprintKeyHash (s : Str) : Nat := siphash13 (strHashBytes s)

/-- The five fields claim C1 names, in the order the hashing loop feeds
them: key, access type (as `read_only`), id, experimental flag, data-type
discriminant. -/
def variableFingerprintTuple (v : Variable) : Str × Bool × Nat × Bool × Nat :=
  (v.key, v.read_only, v.id, v.experimental, v.value.discr)

/-- The tuple sequence of a variable table, in the map's order. -/
def fingerprintTuples (vars : List (Nat × Variable)) : List (Str × Bool × Nat × Bool × Nat) :=
  vars.map fun p => variableFingerprintTuple p.2

/-- The complete byte stream `calc_variables_hash` feeds to its
`DefaultHasher`. -/
def fingerprintHashInput (vars : List (Nat × Variable)) : List Nat :=
  List.flatten (vars.map fun p => variableHashBytes p.2)

/-- Decoder for one UTF-8 encoded scalar value at the head of a byte list
(used to prove that the hasher's input determines the key): returns the
scalar value and the remaining bytes. -/
def utf8Scalar : List Nat → Option (Nat × List Nat)
  | [] => none
  | b :: rest =>
    if b < 0x80 then some (b, rest)
    else if b < 0xE0 then
      match rest with
      | b1 :: r => some ((b - 0xC0) * 64 + (b1 - 0x80), r)
      | [] => none
    else if b < 0xF0 then
      match rest with
      | b1 :: b2 :: r => some ((b - 0xE0) * 4096 + (b1 - 0x80) * 64 + (b2 - 0x80), r)
      | _ => none
    else
      match rest with
      | b1 :: b2 :: b3 :: r =>
        some ((b - 0xF0) * 262144 + (b1 - 0x80) * 4096 + (b2 - 0x80) * 64 + (b3 - 0x80), r)
      | _ => none

/-- Fixture: a single-variable table whose only varying field is the
key. -/
def keyedVariable (k : Str) : Variable :=
  { value := .boolean true, read_only := true, key := k,
    id := 0, experimental := false, last_value_change := 0 }

/-! ### Wire enums and the value union

The flatbuffers message types are generated at build time from the external
u-os-hub-api schema, which is not part of this repository checkout. The
wire enums are embedded as raw integers with one named constant per schema
member; the concrete raw values are not observable in src/ (only the named
constants are used there) and are chosen as consecutive integers. -/

/-- Modelled from the spec: wire enum `VariableQuality` of §4.A (generated
code, absent from src/). -/
structure FbVariableQuality where
  raw : Int
deriving Repr, DecidableEq

def FbVariableQuality.UNSPECIFIED : FbVariableQuality := ⟨0⟩

def FbVariableQuality.BAD : FbVariableQuality := ⟨1⟩

def FbVariableQuality.GOOD : FbVariableQuality := ⟨2⟩

def FbVariableQuality.UNCERTAIN : FbVariableQuality := ⟨3⟩

def FbVariableQuality.UNCERTAIN_LAST_USABLE_VALUE : FbVariableQuality := ⟨4⟩

def FbVariableQuality.UNCERTAIN_INITIAL_VALUE : FbVariableQuality := ⟨5⟩

/-- Modelled from the spec: wire enum `VariableDataType` of §4.A (generated
code, absent from src/). -/
structure VariableDataType where
  raw : Int
deriving Repr, DecidableEq

def VariableDataType.UNSPECIFIED : VariableDataType := ⟨0⟩

def VariableDataType.INT64 : VariableDataType := ⟨1⟩

def VariableDataType.FLOAT64 : VariableDataType := ⟨2⟩

def VariableDataType.BOOLEAN : VariableDataType := ⟨3⟩

def VariableDataType.STRING : VariableDataType := ⟨4⟩

def VariableDataType.TIMESTAMP : VariableDataType := ⟨5⟩

def VariableDataType.DURATION : VariableDataType := ⟨6⟩

/-- Modelled from the spec: wire enum `VariableAccessType` of §4.A
(generated code, absent from src/). -/
structure VariableAccessType where
  raw : Int
deriving Repr, DecidableEq

def VariableAccessType.UNSPECIFIED : VariableAccessType := ⟨0⟩

def VariableAccessType.READ_ONLY : VariableAccessType := ⟨1⟩

def VariableAccessType.READ_WRITE : VariableAccessType := ⟨2⟩

/-- Modelled from the spec: wire enum `ProviderDefinitionState` (generated
code, absent from src/). -/
structure ProviderDefinitionState where
  raw : Int
deriving Repr, DecidableEq

def ProviderDefinitionState.UNSPECIFIED : ProviderDefinitionState := ⟨0⟩

def ProviderDefinitionState.OK : ProviderDefinitionState := ⟨1⟩

/-- Wire duration `DurationT { seconds: i64, nanos: i32 }`. -/
structure DurationT where
  seconds : Int
  nanos : Int
deriving Repr, DecidableEq

/-- The wire value union `VariableValueT` (generated object-model type):
`NONE` plus the six typed members, table members carrying their optional
payload. -/
inductive VariableValueT where
  | NONE
  | Boolean (value : Bool)
  | Duration (value : Option DurationT)
  | Float64 (value : Nat)
  | Int64 (value : Int)
  | String (value : Option Str)
  | Timestamp (value : Option TimestampT)
deriving Repr, DecidableEq

/-- Embeds `impl From<VariableValueT> for Option<VariableValue>`
(src/variable/value.rs, lines 110-128): `NONE` and missing table payloads
yield `none`. -/
def valueFromWire : VariableValueT → Option Value
  | .NONE => none
  | .Boolean b => some (.boolean b)
  | .Duration o =>
    match o with
    | some d => some (.duration d.seconds d.nanos)
    | none => none
  | .Float64 bits => some (.float64 bits)
  | .Int64 v => some (.int v)
  | .String o =>
    match o with
    | some s => some (.string s)
    | none => none
  | .Timestamp o =>
    match o with
    | some t => some (.timestamp (timestampFromWire t))
    | none => none

/-- Wire `VariableT` (a variable state on the wire): id, quality, optional
per-variable timestamp and the value union. -/
structure VariableT where
  quality : FbVariableQuality
  id : Nat
  value : VariableValueT
  timestamp : Option TimestampT
deriving Repr, DecidableEq

/-- Wire `VariableListT { provider_definition_fingerprint, timestamp
(base), items }`. -/
structure VariableListT where
  provider_definition_fingerprint : Nat
  timestamp : Option TimestampT
  items : Option (List VariableT)
deriving Repr, DecidableEq

/-- Wire `WriteVariablesCommandT { variables: VariableListT }` (Lean
reserves the identifier `variables`, hence the trailing underscore). -/
structure WriteVariablesCommandT where
  variables_ : VariableListT
deriving Repr, DecidableEq

/-! ### Provider worker (src/provider/worker/mod.rs) -/

/-- `BTreeMap::get` on the association-list embedding of the variable
table. -/
def assocGet (id : Nat) : List (Nat × Variable) → Option Variable
  | [] => none
  | (k, v) :: rest => if k = id then some v else assocGet id rest

/-- `BTreeMap::get_mut` followed by overwriting fields: apply `f` to the
entry stored under `id`, leave everything else alone. -/
def assocUpdate (id : Nat) (f : Variable → Variable) :
    List (Nat × Variable) → List (Nat × Variable)
  | [] => []
  | (k, v) :: rest => if k = id then (k, f v) :: rest else (k, v) :: assocUpdate id f rest

/-- One `write_event_notiers` entry: the subscribed id set
(`HashSet<u32>`) and whether the sink channel is still open
(`mpsc::Sender::send` fails exactly when the receiver has been dropped). -/
structure WriteNotifier where
  ids : List Nat
  alive : Bool
deriving Repr, DecidableEq

/-- The provider worker state read and written by `handle_write` and
`update_variable_values` (the NATS handles and command channel carry no
claim-relevant state; the `BTreeMap<u32, Variable>` is an association list
in iteration order). -/
structure ProviderWorkerState where
  vars : List (Nat × Variable)
  current_fingerprint : Nat
  write_event_notiers : List WriteNotifier
deriving Repr, DecidableEq

/-- The `filter_map` of `handle_write` (lines 456-478): drop items with an
unknown id, a read-only target, or a value union that converts to `None`;
a surviving item is the stored variable carrying the requested value. -/
def handleWriteItems (st : ProviderWorkerState) (items : List VariableT) : List Variable :=
  items.filterMap fun to_conv =>
    match assocGet to_conv.id st.vars with
    | some current_variable =>
      if current_variable.read_only then none
      else
        match valueFromWire to_conv.value with
        | some new_value => some { current_variable with value := new_value }
        | none => none
    | none => none

/-- Embeds `ProviderWorker::handle_write` (lines 436-506). The message is
`none` when `flatbuffers::root` fails to parse the payload. Returns the new
worker state together with the successful deliveries, as pairs of the
notifier's index in `write_event_notiers` and the variable list passed to
its `send` call. -/
def handle_write (st : ProviderWorkerState) (msg : Option WriteVariablesCommandT) :
    ProviderWorkerState × List (Nat × List Variable) :=
  match msg with
  | none => (st, [])
  | some write_command =>
    if write_command.variables_.provider_definition_fingerprint ≠ st.current_fingerprint then
      (st, [])
    else
      match write_command.variables_.items with
      | none => (st, [])
      | some items =>
        let converted := handleWriteItems st items
        let enumerated := st.write_event_notiers.enum
        let deliveries := enumerated.filterMap fun p =>
          let items_for_sender := converted.filter fun var => p.2.ids.contains var.id
          if items_for_sender.isEmpty then none
          else if p.2.alive then some (p.1, items_for_sender) else none
        let dead_conns := enumerated.filterMap fun p =>
          let items_for_sender := converted.filter fun var => p.2.ids.contains var.id
          if items_for_sender.isEmpty then none
          else if p.2.alive then none else some p.1
        let notiers := (enumerated.filter fun p => !(dead_conns.contains p.1)).map Prod.snd
        ({ st with write_event_notiers := notiers }, deliveries)

/-- The surviving items of a write command as claim C2 (amended) words
them: items whose id is known, whose target is writable and whose value
union carries a payload; each survivor is the stored variable with the
requested value. -/
def survivingWriteItems (st : ProviderWorkerState) (items : List VariableT) : List Variable :=
  items.filterMap fun it =>
    match assocGet it.id st.vars, valueFromWire it.value with
    | some cur, some nv => if cur.read_only then none else some { cur with value := nv }
    | some _, none => none
    | none, _ => none

/-- The deliveries claim C2 (amended) predicts: every live subscriber
receives exactly the surviving items whose id lies in its id set, and is
notified iff that list is non-empty. -/
def writeDeliveriesSpec (st : ProviderWorkerState) (items : List VariableT) :
    List (Nat × List Variable) :=
  st.write_event_notiers.enum.filterMap fun p =>
    if p.2.alive then
      let sent := (survivingWriteItems st items).filter fun v => p.2.ids.contains v.id
      if sent.isEmpty then none else some (p.1, sent)
    else none

/-- Errors of `ProviderWorker::update_variable_values`
(src/provider/mod.rs error enum; the NATS variant is unreachable in the
embedded, IO-free fragment). -/
inductive UpdateVariableValuesError where
  | TypeMismatch (key : Str)
  | VariableNotFound (key : Str)
deriving Repr, DecidableEq

/-- The check loop of `update_variable_values` (lines 514-531): the first
failing item determines the error. -/
def checkUpdateVars (vars : List (Nat × Variable)) :
    List Variable → Option UpdateVariableValuesError
  | [] => none
  | update_variable :: rest =>
    match assocGet update_variable.id vars with
    | some current_variable =>
      if update_variable.value.discr ≠ current_variable.value.discr then
        some (.TypeMismatch update_variable.key)
      else checkUpdateVars vars rest
    | none => some (.VariableNotFound update_variable.key)

/-- The commit loop of `update_variable_values` (lines 534-539): overwrite
value and last change timestamp of each updated entry in order. -/
def commitUpdateVars (vars : List (Nat × Variable)) (updates : List Variable) :
    List (Nat × Variable) :=
  updates.foldl
    (fun acc u =>
      assocUpdate u.id
        (fun cur => { cur with value := u.value, last_value_change := u.last_value_change })
        acc)
    vars

/-- Embeds `ProviderWorker::update_variable_values` (lines 509-545) up to
the trailing NATS publish (IO): run the check loop first, commit only when
every item passed, and hand the untouched table back with the error
otherwise. -/
def update_variable_values (st : ProviderWorkerState) (vars : List Variable) :
    Except UpdateVariableValuesError Unit × ProviderWorkerState :=
  match checkUpdateVars st.vars vars with
  | some e => (.error e, st)
  | none => (.ok (), { st with vars := commitUpdateVars st.vars vars })

/-! ### Consumer-side connected provider (src/consumer/connected_nats_provider.rs) -/

/-- Wire `VariableDefinitionT` (generated object-model type used by
provider and consumer alike). -/
structure VariableDefinitionT where
  key : Str
  id : Nat
  data_type : VariableDataType
  access_type : VariableAccessType
  experimental : Bool
deriving Repr, DecidableEq

/-- `consumer::connected_nats_provider::Error`; the NATS transport and
payload variants are unreachable in the embedded, IO-free fragment. -/
inductive ConsumerError where
  | ProviderFingerprintMismatch (expected actual : Nat)
  | InvalidVariableId (id : Nat)
  | InvalidVariableKey (key : Str)
  | NotPermitted (key : Str)
  | InvalidValueType
  | ProviderOfflineOrInvalid (provider : Str)
deriving Repr, DecidableEq

/-- A consumer-side error of the validation kind (§7 of the spec): an
unknown id, a read-only violation or a value type mismatch. -/
def ConsumerError.isValidation : ConsumerError → Bool
  | .InvalidVariableId _ => true
  | .NotPermitted _ => true
  | .InvalidValueType => true
  | _ => false

/-- The claim-relevant state of `ConnectedNatsProvider`: its provider id,
the cached fingerprint (`none` when the provider is offline or invalid)
and the id → definition lookup table. -/
structure ConnectedNatsProviderState where
  provider_id : Str
  cur_fingerprint : Option Nat
  cur_variable_defs : List (Nat × VariableDefinitionT)
deriving Repr, DecidableEq

/-- `FxHashMap::get` on the embedded definition map. -/
def defsGet (id : Nat) : List (Nat × VariableDefinitionT) → Option VariableDefinitionT
  | [] => none
  | (k, v) :: rest => if k = id then some v else defsGet id rest

/-- Embeds `ConnectedNatsProvider::check_variable_value_type`
(src/consumer/connected_nats_provider.rs, lines 529-542): the value
union's member must pair with the declared data type. -/
def check_variable_value_type (value_type : VariableValueT) (var_def : VariableDataType) :
    Except ConsumerError Unit :=
  match value_type with
  | .Float64 _ => if var_def = VariableDataType.FLOAT64 then .ok () else .error .InvalidValueType
  | .Int64 _ => if var_def = VariableDataType.INT64 then .ok () else .error .InvalidValueType
  | .String _ => if var_def = VariableDataType.STRING then .ok () else .error .InvalidValueType
  | .Timestamp _ =>
    if var_def = VariableDataType.TIMESTAMP then .ok () else .error .InvalidValueType
  | .Boolean _ => if var_def = VariableDataType.BOOLEAN then .ok () else .error .InvalidValueType
  | .Duration _ =>
    if var_def = VariableDataType.DURATION then .ok () else .error .InvalidValueType
  | .NONE => .error .InvalidValueType

/-- The per-item loop of `check_write_command` (lines 552-567): resolve
the id, require write permission, then the type match; the first failing
item decides the error. -/
def checkWriteItems (defs : List (Nat × VariableDefinitionT)) :
    List VariableT → Except ConsumerError Unit
  | [] => .ok ()
  | var :: rest =>
    match defsGet var.id defs with
    | none => .error (.InvalidVariableId var.id)
    | some var_def =>
      if var_def.access_type ≠ VariableAccessType.READ_WRITE then
        .error (.NotPermitted var_def.key)
      else
        match check_variable_value_type var.value var_def.data_type with
        | .error e => .error e
        | .ok () => checkWriteItems defs rest

/-- Embeds `ConnectedNatsProvider::check_write_command` (lines 547-570). -/
def check_write_command (st : ConnectedNatsProviderState) (cmd : WriteVariablesCommandT) :
    Except ConsumerError Unit :=
  match cmd.variables_.items with
  | none => .ok ()
  | some items => checkWriteItems st.cur_variable_defs items

/-- Embeds `check_online` (lines 572-577). -/
def check_online (st : ConnectedNatsProviderState) : Except ConsumerError Unit :=
  if st.cur_fingerprint.isSome then .ok ()
  else .error (.ProviderOfflineOrInvalid st.provider_id)

/-- Embeds `write_variables_unchecked` (lines 355-391): require a cached
fingerprint, require it to equal the command's, then publish and flush; a
`.ok` result stands for the command published to the broker. -/
def write_variables_unchecked (st : ConnectedNatsProviderState)
    (write_command : WriteVariablesCommandT) :
    Except ConsumerError WriteVariablesCommandT :=
  match st.cur_fingerprint with
  | none => .error (.ProviderOfflineOrInvalid st.provider_id)
  | some cur_fingerprint =>
    if cur_fingerprint ≠ write_command.variables_.provider_definition_fingerprint then
      .error (.ProviderFingerprintMismatch
        write_command.variables_.provider_definition_fingerprint cur_fingerprint)
    else .ok write_command

/-- Embeds `ConnectedNatsProvider::write_variables` (lines 402-407):
`check_online`, then `check_write_command`, and only then the
publish-and-flush path of `write_variables_unchecked`. -/
def write_variables (st : ConnectedNatsProviderState) (write_command : WriteVariablesCommandT) :
    Except ConsumerError WriteVariablesCommandT :=
  match check_online st with
  | .error e => .error e
  | .ok () =>
    match check_write_command st write_command with
    | .error e => .error e
    | .ok () => write_variables_unchecked st write_command

/-! ### NATS subjects (src/nats_subjects/mod.rs)

The version segment `v1` and the location segment `loc` (the two constant
strings of the module) are inlined into each builder. -/

/-- Rust `str::split('.')`: the dot-separated segments; an empty string
yields one empty segment, and separators at the ends yield empty
segments. -/
def splitOnDot : Str → List Str
  | [] => [[]]
  | c :: rest =>
    if c = '.' then [] :: splitOnDot rest
    else
      match splitOnDot rest with
      | s :: ss => (c :: s) :: ss
      | [] => [[c]]

/-- `v1.loc.<P>.vars.evt.changed` (lines 17-20). -/
def vars_changed_event (provider_id : Str) : Str :=
  str "v1" ++ '.' :: (str "loc" ++ '.' :: (provider_id ++ '.' :: str "vars.evt.changed"))

/-- `v1.loc.<P>.vars.qry.read` (lines 23-26). -/
def read_variables_query (provider_id : Str) : Str :=
  str "v1" ++ '.' :: (str "loc" ++ '.' :: (provider_id ++ '.' :: str "vars.qry.read"))

/-- `v1.loc.<P>.vars.cmd.write` (lines 29-32). -/
def write_variables_command (provider_id : Str) : Str :=
  str "v1" ++ '.' :: (str "loc" ++ '.' :: (provider_id ++ '.' :: str "vars.cmd.write"))

/-- `v1.loc.<P>.def.evt.changed` (lines 37-40). -/
def provider_changed_event (provider_id : Str) : Str :=
  str "v1" ++ '.' :: (str "loc" ++ '.' :: (provider_id ++ '.' :: str "def.evt.changed"))

/-- `v1.loc.registry.providers.<P>.def.qry.read` (lines 43-46). -/
def registry_provider_definition_read_query (provider_id : Str) : Str :=
  str "v1" ++ '.' :: (str "loc" ++ '.' ::
    (str "registry" ++ '.' :: (str "providers" ++ '.' ::
      (provider_id ++ '.' :: str "def.qry.read"))))

/-- `v1.loc.registry.providers.<P>.def.evt.changed` (lines 51-54). -/
def registry_provider_definition_changed_event (provider_id : Str) : Str :=
  str "v1" ++ '.' :: (str "loc" ++ '.' ::
    (str "registry" ++ '.' :: (str "providers" ++ '.' ::
      (provider_id ++ '.' :: str "def.evt.changed"))))

/-- Embeds `get_index_of_provider_id` (lines 116-124): a registry subject
(third segment `registry`, fourth segment `providers`) stores the provider
id at index 4, any other subject at index 2. -/
def get_index_of_provider_id (parts : List Str) : Nat :=
  if parts.length ≥ 4 ∧ parts.get? 2 = some (str "registry") ∧
      parts.get? 3 = some (str "providers") then 4
  else 2

/-- Embeds `get_provider_id_from_subject` (lines 97-111): split on dots,
select the index, reject a missing or empty id. -/
def get_provider_id_from_subject (subject : Str) : Except Unit Str :=
  let parts := splitOnDot subject
  match parts.get? (get_index_of_provider_id parts) with
  | none => .error ()
  | some id => if id = [] then .error () else .ok id

/-! ### Typed model conversions (src/dh_types.rs, src/consumer/consumer_types.rs) -/

/-- `dh_types::VariableQuality`, the typed quality model: exactly these
five constructors — the type has no `Unknown(raw)` variant. -/
inductive VariableQuality where
  | BadOrUndefined
  | Good
  | Uncertain
  | UncertainLastUsableValue
  | UncertainInitialValue
deriving Repr, DecidableEq

/-- `dh_types::Error`. -/
inductive DhError where
  | FlatbufferDataTypeConversionFailure
deriving Repr, DecidableEq

/-- Embeds `impl TryFrom<VariableQuality> for VariableQuality`
(src/dh_types.rs, lines 46-63): the catch-all arm turns every
unrecognised wire discriminant into an error. -/
def variableQualityTryFrom (value : FbVariableQuality) : Except DhError VariableQuality :=
  if value = FbVariableQuality.BAD then .ok .BadOrUndefined
  else if value = FbVariableQuality.GOOD then .ok .Good
  else if value = FbVariableQuality.UNCERTAIN then .ok .Uncertain
  else if value = FbVariableQuality.UNCERTAIN_LAST_USABLE_VALUE then
    .ok .UncertainLastUsableValue
  else if value = FbVariableQuality.UNCERTAIN_INITIAL_VALUE then .ok .UncertainInitialValue
  else .error .FlatbufferDataTypeConversionFailure

/-- `dh_types::VariableType`, the typed data-type model: again without any
`Unknown(raw)` variant. -/
inductive VariableType where
  | Float64
  | Int64
  | String
  | Timestamp
  | Duration
  | Boolean
deriving Repr, DecidableEq

/-- Embeds `impl TryFrom<VariableDataType> for VariableType`
(src/dh_types.rs, lines 91-105): the catch-all arm errors. -/
def variableTypeTryFrom (value : VariableDataType) : Except DhError VariableType :=
  if value = VariableDataType.FLOAT64 then .ok .Float64
  else if value = VariableDataType.INT64 then .ok .Int64
  else if value = VariableDataType.STRING then .ok .String
  else if value = VariableDataType.TIMESTAMP then .ok .Timestamp
  else if value = VariableDataType.DURATION then .ok .Duration
  else if value = VariableDataType.BOOLEAN then .ok .Boolean
  else .error .FlatbufferDataTypeConversionFailure

/-- `dh_types::VariableDefinition` (typed catalogue entry). -/
structure VariableDefinition where
  id : Nat
  key : Str
  data_type : VariableType
  read_only : Bool
  experimental : Bool
deriving Repr, DecidableEq

/-- Embeds `impl TryFrom<VariableDefinitionT> for VariableDefinition`
(src/dh_types.rs, lines 135-149): an unrecognised data type fails, while
every access type other than `READ_WRITE` is conflated into
`read_only = true` without preserving the raw value. -/
def variableDefinitionTryFrom (ll_var_def : VariableDefinitionT) :
    Except DhError VariableDefinition :=
  match variableTypeTryFrom ll_var_def.data_type with
  | .error e => .error e
  | .ok mapped_data_type =>
    .ok { id := ll_var_def.id, key := ll_var_def.key, data_type := mapped_data_type,
          read_only := ll_var_def.access_type != VariableAccessType.READ_WRITE,
          experimental := ll_var_def.experimental }

/-- `consumer_types::VariableState` (typed variable state). -/
structure VariableState where
  timestamp : Int
  value : Value
  quality : VariableQuality
deriving Repr, DecidableEq

/-- Embeds `VariableState::new` (src/consumer/consumer_types.rs, lines
52-75): per-item timestamp over the fallback, the value via
`valueFromWire` (`?`-failing on `none`), the quality via `try_into`
(`?`-failing on unrecognised discriminants). -/
def VariableState.new (ll_var : VariableT) (fallback_timestamp : Int) :
    Except DhError VariableState :=
  let mapped_ts :=
    match ll_var.timestamp with
    | some ts => timestampFromWire ts
    | none => fallback_timestamp
  match valueFromWire ll_var.value with
  | none => .error .FlatbufferDataTypeConversionFailure
  | some mapped_value =>
    match variableQualityTryFrom ll_var.quality with
    | .error e => .error e
    | .ok q => .ok { timestamp := mapped_ts, value := mapped_value, quality := q }

/-! ### Provider definition validator
(src/provider/provider_definition_validator/mod.rs and
src/provider/variable_definition_validator/mod.rs) -/

/-- Errors of the variable definition validator. -/
inductive InvalidVariableDefinitionError where
  | UnnamedVariable
  | InvalidCharacters (key : Str)
  | TrailingDot (key : Str)
  | UnspecifiedProperty (name : Str)
  | InvalidLength (key : Str)
deriving Repr, DecidableEq

/-- A word-start character of the key pattern: `[a-zA-Z_]`. -/
def isWordStart (c : Char) : Bool :=
  (decide ('a' ≤ c) && decide (c ≤ 'z')) ||
  (decide ('A' ≤ c) && decide (c ≤ 'Z')) || c == '_'

/-- A word character of the key pattern: `[a-zA-Z0-9_]`. -/
def isWordChar (c : Char) : Bool :=
  isWordStart c || (decide ('0' ≤ c) && decide (c ≤ '9'))

/-- One segment of the key pattern: `[a-zA-Z_]([a-zA-Z0-9_]{0,62})?`. -/
def segmentOk : Str → Bool
  | [] => false
  | c :: rest => isWordStart c && decide (rest.length ≤ 62) && rest.all isWordChar

/-- The anchored key regex `VALID_VARIABLE_KEY_PATTERN`
(`^[a-zA-Z_]([a-zA-Z0-9_]{0,62})?(\.[a-zA-Z_]([a-zA-Z0-9_]{0,62})?)*$`):
since `.` is not a word character, a string matches exactly when every
dot-separated segment matches the segment pattern. -/
def keyMatchesPattern (key : Str) : Bool := (splitOnDot key).all segmentOk

/-- Embeds `validate_variable_key`
(src/provider/variable_definition_validator/mod.rs, lines 55-80). -/
def validate_variable_key (key : Str) : Except InvalidVariableDefinitionError Unit :=
  if key = [] then .error .UnnamedVariable
  else if key.getLast? = some '.' then .error (.TrailingDot key)
  else if key.length > 1023 then .error (.InvalidLength key)
  else if keyMatchesPattern key then .ok ()
  else .error (.InvalidCharacters key)

/-- Embeds `VariableDefinitionT::validate`
(src/provider/variable_definition_validator/mod.rs, lines 86-102). -/
def VariableDefinitionT.validate (d : VariableDefinitionT) :
    Except InvalidVariableDefinitionError Unit :=
  if d.access_type = VariableAccessType.UNSPECIFIED then
    .error (.UnspecifiedProperty (str "access_type"))
  else if d.data_type = VariableDataType.UNSPECIFIED then
    .error (.UnspecifiedProperty (str "data_type"))
  else validate_variable_key d.key

/-- Errors of the provider definition validator. -/
inductive InvalidProviderDefinitionError where
  | DuplicatePath (key : Str)
  | AddToLeafNode (key : Str)
  | InvalidVariableDefinition (e : InvalidVariableDefinitionError)
  | DuplicateId (id : Nat)
deriving Repr, DecidableEq

/-- Wire `ProviderDefinitionT` (generated type the validator extends). -/
structure ProviderDefinitionT where
  fingerprint : Nat
  variable_definitions : Option (List VariableDefinitionT)
  state : ProviderDefinitionState
deriving Repr, DecidableEq

/-- Rust `Vec::join(".")` on segment lists. -/
def joinDots : List Str → Str
  | [] => []
  | [s] => s
  | s :: rest => s ++ '.' :: joinDots rest

/-- Embeds `get_all_parent_paths` (lines 105-116): the joins of every
proper leading run of dot-separated segments. -/
def get_all_parent_paths (variable_key : Str) : List Str :=
  (List.range ((splitOnDot variable_key).length - 1)).map
    fun last_index => joinDots ((splitOnDot variable_key).take (last_index + 1))

/-- Embeds `is_variable_added_to_leaf_node` (lines 90-95). -/
def is_variable_added_to_leaf_node (paths : List Str) (variable_key : Str) : Bool :=
  (get_all_parent_paths variable_key).any fun parent_path => decide (parent_path ∈ paths)

/-- The first loop of `ProviderDefinitionT::validate` (lines 50-65):
validate each definition, then report duplicate ids and duplicate keys via
insert-reporting hash sets (embedded as accumulator lists); returns the
accumulated key set on success. -/
def validateLoop1 : List VariableDefinitionT → List Nat → List Str →
    Except InvalidProviderDefinitionError (List Str)
  | [], _, paths => .ok paths
  | v :: rest, ids, paths =>
    match v.validate with
    | .error e => .error (.InvalidVariableDefinition e)
    | .ok () =>
      if v.id ∈ ids then .error (.DuplicateId v.id)
      else if v.key ∈ paths then .error (.DuplicatePath v.key)
      else validateLoop1 rest (v.id :: ids) (v.key :: paths)

/-- The second loop of `ProviderDefinitionT::validate` (lines 68-74),
run against the full key set. -/
def validateLoop2 (paths : List Str) : List VariableDefinitionT →
    Except InvalidProviderDefinitionError Unit
  | [] => .ok ()
  | v :: rest =>
    if is_variable_added_to_leaf_node paths v.key then .error (.AddToLeafNode v.key)
    else validateLoop2 paths rest

/-- Embeds `ProviderDefinitionT::validate` (lines 44-77). -/
def ProviderDefinitionT.validate (d : ProviderDefinitionT) :
    Except InvalidProviderDefinitionError Unit :=
  match d.variable_definitions with
  | none => .ok ()
  | some variable_definitions =>
    match validateLoop1 variable_definitions [] [] with
    | .error e => .error e
    | .ok paths => validateLoop2 paths variable_definitions

/-! ### Concrete fixtures for counterexamples and witnesses -/

/-- Fixture: a writable boolean variable with id 0. -/
def rwVarC2 : Variable :=
  { value := .boolean false, read_only := false, key := str "rw_bool",
    id := 0, experimental := false, last_value_change := 0 }

/-- Fixture: worker state holding only `rwVarC2` and one live write
subscriber bound to id 0. -/
def stC2 : ProviderWorkerState :=
  { vars := [(0, rwVarC2)], current_fingerprint := 7,
    write_event_notiers := [{ ids := [0], alive := true }] }

/-- Fixture: a write command with the matching fingerprint whose single
item targets id 0 but carries the `NONE` member of the value union. -/
def cmdC2 : WriteVariablesCommandT :=
  { variables_ :=
    { provider_definition_fingerprint := 7, timestamp := none,
      items := some [{ quality := .GOOD, id := 0, value := .NONE, timestamp := none }] } }

/-- Fixture: a value-payload change that keeps the discriminant (flips a
boolean payload, leaves other values alone). -/
def flipBool : Value → Value
  | .boolean b => .boolean (!b)
  | other => other

/-- Fixture: a valid variable definition with key "a". -/
def defA : VariableDefinitionT :=
  { key := str "a", id := 0, data_type := .BOOLEAN,
    access_type := .READ_ONLY, experimental := false }

/-- Fixture: a valid variable definition with key "b.c". -/
def defB : VariableDefinitionT :=
  { key := str "b.c", id := 1, data_type := .INT64,
    access_type := .READ_WRITE, experimental := false }

/-- Fixture: a provider definition holding `defA` and `defB`. -/
def provDefC3 : ProviderDefinitionT :=
  { fingerprint := 0, variable_definitions := some [defA, defB], state := .UNSPECIFIED }

/-- Fixture: worker state holding `rwVarC2` with one dead and one live
write subscriber, both bound to id 0. -/
def stC10 : ProviderWorkerState :=
  { vars := [(0, rwVarC2)], current_fingerprint := 7,
    write_event_notiers := [{ ids := [0], alive := false }, { ids := [0], alive := true }] }

/-- Fixture: a write command with the matching fingerprint carrying one
boolean write to id 0. -/
def cmdC10 : WriteVariablesCommandT :=
  { variables_ :=
    { provider_definition_fingerprint := 7, timestamp := none,
      items := some [{ quality := .GOOD, id := 0, value := .Boolean true, timestamp := none }] } }

/-- Fixture: a read-only boolean definition with id 0. -/
def roDefC5 : VariableDefinitionT :=
  { key := str "ro_bool", id := 0, data_type := .BOOLEAN,
    access_type := .READ_ONLY, experimental := false }

/-- Fixture: an online consumer connection caching only `roDefC5`. -/
def stC5 : ConnectedNatsProviderState :=
  { provider_id := str "prov", cur_fingerprint := some 7,
    cur_variable_defs := [(0, roDefC5)] }

/-- Fixture: a write command targeting the read-only variable of `stC5`. -/
def cmdC5 : WriteVariablesCommandT :=
  { variables_ :=
    { provider_definition_fingerprint := 7, timestamp := none,
      items := some [{ quality := .GOOD, id := 0, value := .Boolean true, timestamp := none }] } }

/-! ### Helper lemmas -/

theorem tmod_lower_bound (x : Int) : -1000000000 < x.tmod 1000000000 := by
  cases x with
  | ofNat m =>
    have h := Int.tmod_nonneg (a := Int.ofNat m) 1000000000 (Int.ofNat_nonneg m)
    omega
  | negSucc m =>
    have h : Int.tmod (Int.negSucc m) 1000000000 = -Int.ofNat ((m + 1) % 1000000000) :=
      rfl
    rw [h]
    simp only [Int.ofNat_eq_natCast]
    have h2 : (m + 1) % 1000000000 < 1000000000 := Nat.mod_lt _ (by norm_num)
    omega

theorem tmod_upper_bound (x : Int) : x.tmod 1000000000 < 1000000000 :=
  Int.tmod_lt_of_pos x (by norm_num)

theorem tdiv_tmod_eq (x : Int) :
    1000000000 * x.tdiv 1000000000 + x.tmod 1000000000 = x :=
  Int.tdiv_add_tmod x 1000000000

theorem siphash13_lt (bytes : List Nat) : siphash13 bytes < 2 ^ 64 :=
  Nat.mod_lt _ (by norm_num)

theorem enumFrom_filter_map_snd_sublist {α : Type} (l : List α) (n : Nat)
    (p : Nat × α → Bool) :
    List.Sublist (((List.enumFrom n l).filter p).map Prod.snd) l := by
  induction l generalizing n with
  | nil => simp
  | cons a t ih =>
    simp only [List.enumFrom, List.filter_cons]
    split
    · simpa using List.Sublist.cons₂ a (ih (n + 1))
    · exact List.Sublist.cons a (ih (n + 1))

theorem le_fst_of_mem_enumFrom {α : Type} {p : Nat × α} :
    ∀ {l : List α} {n : Nat}, p ∈ List.enumFrom n l → n ≤ p.1
  | [], _, hp => absurd hp (List.not_mem_nil p)
  | x :: t, n, hp => by
    rcases List.mem_cons.mp hp with rfl | hmem
    · exact Nat.le_refl n
    · exact Nat.le_of_succ_le (le_fst_of_mem_enumFrom hmem)

theorem enumFrom_fst_inj {α : Type} {p q : Nat × α} :
    ∀ {l : List α} {n : Nat}, p ∈ List.enumFrom n l → q ∈ List.enumFrom n l →
      p.1 = q.1 → p = q
  | [], _, hp, _, _ => absurd hp (List.not_mem_nil p)
  | x :: t, n, hp, hq, h => by
    rcases List.mem_cons.mp hp with rfl | hpmem
    · rcases List.mem_cons.mp hq with rfl | hqmem
      · rfl
      · have := le_fst_of_mem_enumFrom hqmem
        omega
    · rcases List.mem_cons.mp hq with rfl | hqmem
      · have := le_fst_of_mem_enumFrom hpmem
        omega
      · exact enumFrom_fst_inj hpmem hqmem h

theorem enumFrom_filter_count {α : Type} [DecidableEq α] (P : α → Prop) :
    ∀ (l : List α) (n : Nat) (f : Nat × α → Bool),
    (∀ p ∈ List.enumFrom n l, P p.2 → f p = true) → ∀ a, P a →
    (((List.enumFrom n l).filter f).map Prod.snd).count a = l.count a
  | [], _, _, _, _, _ => rfl
  | x :: t, n, f, hf, a, ha => by
    simp only [List.enumFrom, List.filter_cons]
    by_cases hfx : f (n, x) = true
    · rw [if_pos hfx]
      simp only [List.map_cons, List.count_cons]
      rw [enumFrom_filter_count P t (n + 1) f
        (fun p hp => hf p (List.mem_cons_of_mem (n, x) hp)) a ha]
    · rw [if_neg hfx]
      have hx : ¬P x := fun hPx => hfx (hf (n, x) (List.mem_cons_self (n, x) _) hPx)
      have hxa : a ≠ x := fun e => hx (e ▸ ha)
      rw [enumFrom_filter_count P t (n + 1) f
        (fun p hp => hf p (List.mem_cons_of_mem (n, x) hp)) a ha]
      rw [List.count_cons_of_ne hxa]

theorem handleWriteItems_eq_surviving (st : ProviderWorkerState) (items : List VariableT) :
    handleWriteItems st items = survivingWriteItems st items := by
  unfold handleWriteItems survivingWriteItems
  refine congrFun (congrArg _ (funext fun it => ?_)) items
  rcases h : assocGet it.id st.vars with _ | cur
  · simp
  · rcases hv : valueFromWire it.value with _ | nv <;> by_cases hr : cur.read_only <;> simp [hr]

theorem assocGet_assocUpdate_self (id : Nat) (f : Variable → Variable)
    (l : List (Nat × Variable)) :
    assocGet id (assocUpdate id f l) = (assocGet id l).map f := by
  induction l with
  | nil => simp [assocGet, assocUpdate]
  | cons hd tl ih =>
    rcases hd with ⟨k, v⟩
    by_cases h : k = id <;> simp [assocGet, assocUpdate, h, ih]

theorem assocGet_assocUpdate_ne (id id' : Nat) (f : Variable → Variable)
    (l : List (Nat × Variable)) (h : id' ≠ id) :
    assocGet id (assocUpdate id' f l) = assocGet id l := by
  induction l with
  | nil => rfl
  | cons hd tl ih =>
    rcases hd with ⟨k, v⟩
    have h' : ¬(id = id') := fun e => h e.symm
    by_cases hk : k = id'
    · subst hk
      simp [assocGet, assocUpdate, h, ih]
    · by_cases hk2 : k = id <;> simp [assocGet, assocUpdate, hk, hk2, h', ih]

theorem commitUpdateVars_cons (l : List (Nat × Variable)) (u : Variable)
    (us : List Variable) :
    commitUpdateVars l (u :: us) =
      commitUpdateVars
        (assocUpdate u.id
          (fun cur => { cur with value := u.value, last_value_change := u.last_value_change }) l)
        us :=
  rfl

theorem assocGet_commit_notMem (us : List Variable) (l : List (Nat × Variable)) (id : Nat)
    (h : ∀ u ∈ us, u.id ≠ id) :
    assocGet id (commitUpdateVars l us) = assocGet id l := by
  induction us generalizing l with
  | nil => rfl
  | cons u us ih =>
    rw [commitUpdateVars_cons, ih _ fun v hv => h v (List.mem_cons_of_mem u hv)]
    exact assocGet_assocUpdate_ne _ _ _ _ (h u (List.mem_cons_self u us))

theorem assocGet_commit_mem (us : List Variable) (l : List (Nat × Variable))
    (hnd : (us.map fun u => u.id).Nodup) (u : Variable) (hu : u ∈ us) :
    assocGet u.id (commitUpdateVars l us) =
      (assocGet u.id l).map
        fun cur => { cur with value := u.value, last_value_change := u.last_value_change } := by
  induction us generalizing l with
  | nil => cases hu
  | cons v vs ih =>
    simp only [List.map_cons, List.nodup_cons] at hnd
    rcases List.mem_cons.mp hu with rfl | hmem
    · rw [commitUpdateVars_cons,
        assocGet_commit_notMem vs _ u.id
          fun w hw hww => hnd.1 (hww ▸ List.mem_map_of_mem (fun x => x.id) hw)]
      exact assocGet_assocUpdate_self _ _ _
    · rw [commitUpdateVars_cons, ih _ hnd.2 hmem]
      have hne : v.id ≠ u.id := fun hvu => hnd.1 (hvu ▸ List.mem_map_of_mem (fun x => x.id) hmem)
      rw [assocGet_assocUpdate_ne _ _ _ _ hne]

theorem checkUpdateVars_eq_none_iff (l : List (Nat × Variable)) (us : List Variable) :
    checkUpdateVars l us = none ↔
      ∀ u ∈ us, ∃ cur, assocGet u.id l = some cur ∧ u.value.discr = cur.value.discr := by
  induction us with
  | nil => simp [checkUpdateVars]
  | cons u us ih =>
    simp only [checkUpdateVars]
    rcases h : assocGet u.id l with _ | cur
    · simp [List.forall_mem_cons, h]
    · by_cases hd : u.value.discr = cur.value.discr
      · simp [List.forall_mem_cons, h, hd, ih]
      · simp [List.forall_mem_cons, h, hd]

theorem splitOnDot_ne_nil (s : Str) : splitOnDot s ≠ [] := by
  match s with
  | [] => simp [splitOnDot]
  | c :: rest =>
    by_cases hc : c = '.'
    · simp [splitOnDot, hc]
    · simp only [splitOnDot, hc, ite_false, if_false]
      rcases h : splitOnDot rest with _ | ⟨s', ss⟩ <;> simp

theorem splitOnDot_append_dot (a b : Str) :
    splitOnDot (a ++ '.' :: b) = splitOnDot a ++ splitOnDot b := by
  induction a with
  | nil => simp [splitOnDot]
  | cons c a ih =>
    by_cases hc : c = '.'
    · subst hc
      simp [splitOnDot, ih]
    · simp only [List.cons_append, splitOnDot, hc, ite_false, if_false, List.append_eq]
      rw [ih]
      rcases h : splitOnDot a with _ | ⟨s', ss⟩
      · exact absurd h (splitOnDot_ne_nil a)
      · rfl

theorem splitOnDot_no_dot (s : Str) (h : '.' ∉ s) : splitOnDot s = [s] := by
  induction s with
  | nil => rfl
  | cons c rest ih =>
    have hc : c ≠ '.' := fun e => h (e ▸ List.mem_cons_self c rest)
    simp only [splitOnDot, hc, ite_false, if_false]
    rw [ih fun hm => h (List.mem_cons_of_mem c hm)]

theorem extract_of_split_plain (subject p s3 s4 s5 : Str)
    (hsplit : splitOnDot subject = [str "v1", str "loc", p, s3, s4, s5])
    (hp : p ≠ []) (hs3 : s3 ≠ str "providers") :
    get_provider_id_from_subject subject = .ok p := by
  have hc : ¬([str "v1", str "loc", p, s3, s4, s5].length ≥ 4 ∧
      some p = some (str "registry") ∧ some s3 = some (str "providers")) := by
    rintro ⟨-, -, h3⟩
    exact hs3 (Option.some.inj h3)
  simp only [get_provider_id_from_subject, get_index_of_provider_id, hsplit, List.get?]
  rw [if_neg hc]
  simp only [List.get?]
  rw [if_neg hp]

theorem extract_of_split_registry (subject p s5 s6 s7 : Str)
    (hsplit : splitOnDot subject =
      [str "v1", str "loc", str "registry", str "providers", p, s5, s6, s7])
    (hp : p ≠ []) :
    get_provider_id_from_subject subject = .ok p := by
  simp only [get_provider_id_from_subject, get_index_of_provider_id, hsplit, List.get?]
  rw [if_neg hp]

theorem char_toNat_lt (c : Char) : c.toNat < 1114112 := by
  have h := c.valid
  show c.val.toNat < 1114112
  rcases h with h | ⟨h1, h2⟩ <;> omega

theorem char_eq_of_toNat_eq {c d : Char} (h : c.toNat = d.toNat) : c = d :=
  Char.ext (UInt32.toNat.inj h)

theorem utf8Char_ne_nil (c : Char) : utf8Char c ≠ [] := by
  unfold utf8Char
  split_ifs <;> simp

theorem utf8Char_lt_255 (c : Char) : ∀ b ∈ utf8Char c, b < 255 := by
  have hc := char_toNat_lt c
  unfold utf8Char
  split_ifs with h1 h2 h3
  · intro b hb
    simp only [List.mem_singleton] at hb
    omega
  · intro b hb
    simp only [List.mem_cons, List.not_mem_nil, or_false] at hb
    rcases hb with rfl | rfl <;> omega
  · intro b hb
    simp only [List.mem_cons, List.not_mem_nil, or_false] at hb
    rcases hb with rfl | rfl | rfl <;> omega
  · intro b hb
    simp only [List.mem_cons, List.not_mem_nil, or_false] at hb
    rcases hb with rfl | rfl | rfl | rfl <;> omega

theorem utf8Scalar_utf8Char (c : Char) (x : List Nat) :
    utf8Scalar (utf8Char c ++ x) = some (c.toNat, x) := by
  have hc := char_toNat_lt c
  unfold utf8Char
  split_ifs with h1 h2 h3
  · simp only [List.cons_append, List.nil_append, utf8Scalar, if_pos h1]
  · have b1 : ¬(0xC0 + c.toNat / 64 < 0x80) := by omega
    have b2 : 0xC0 + c.toNat / 64 < 0xE0 := by omega
    simp only [List.cons_append, List.nil_append, utf8Scalar, if_neg b1, if_pos b2,
      Option.some.injEq, Prod.mk.injEq]
    exact ⟨by omega, trivial⟩
  · have b1 : ¬(0xE0 + c.toNat / 4096 < 0x80) := by omega
    have b2 : ¬(0xE0 + c.toNat / 4096 < 0xE0) := by omega
    have b3 : 0xE0 + c.toNat / 4096 < 0xF0 := by omega
    simp only [List.cons_append, List.nil_append, utf8Scalar, if_neg b1, if_neg b2, if_pos b3,
      Option.some.injEq, Prod.mk.injEq]
    exact ⟨by omega, trivial⟩
  · have b1 : ¬(0xF0 + c.toNat / 262144 < 0x80) := by omega
    have b2 : ¬(0xF0 + c.toNat / 262144 < 0xE0) := by omega
    have b3 : ¬(0xF0 + c.toNat / 262144 < 0xF0) := by omega
    simp only [List.cons_append, List.nil_append, utf8Scalar, if_neg b1, if_neg b2, if_neg b3,
      Option.some.injEq, Prod.mk.injEq]
    exact ⟨by omega, trivial⟩

theorem utf8Char_append_inj {c d : Char} {x y : List Nat}
    (h : utf8Char c ++ x = utf8Char d ++ y) : c = d ∧ x = y := by
  have h1 := utf8Scalar_utf8Char c x
  rw [h, utf8Scalar_utf8Char d y] at h1
  have h3 := Option.some.inj h1
  exact ⟨(char_eq_of_toNat_eq (congrArg Prod.fst h3)).symm, (congrArg Prod.snd h3).symm⟩

theorem strHashBytes_cons (c : Char) (cs : Str) :
    strHashBytes (c :: cs) = utf8Char c ++ strHashBytes cs := by
  simp [strHashBytes, utf8, List.append_assoc]

theorem strHashBytes_append_inj : ∀ (s1 s2 : Str) (x y : List Nat),
    strHashBytes s1 ++ x = strHashBytes s2 ++ y → s1 = s2 ∧ x = y
  | [], [], x, y, h => ⟨rfl, by simpa [strHashBytes, utf8] using h⟩
  | [], d :: ds, x, y, h => by
    exfalso
    rw [show strHashBytes [] = [0xff] from rfl, strHashBytes_cons] at h
    rcases he : utf8Char d with _ | ⟨b, bs⟩
    · exact utf8Char_ne_nil d he
    · rw [he] at h
      simp only [List.cons_append, List.nil_append, List.append_assoc, List.cons.injEq] at h
      have hb := utf8Char_lt_255 d b (he ▸ List.mem_cons_self b bs)
      omega
  | c :: cs, [], x, y, h => by
    exfalso
    rw [show strHashBytes [] = [0xff] from rfl, strHashBytes_cons] at h
    rcases he : utf8Char c with _ | ⟨b, bs⟩
    · exact utf8Char_ne_nil c he
    · rw [he] at h
      simp only [List.cons_append, List.nil_append, List.append_assoc, List.cons.injEq] at h
      have hb := utf8Char_lt_255 c b (he ▸ List.mem_cons_self b bs)
      omega
  | c :: cs, d :: ds, x, y, h => by
    rw [strHashBytes_cons, strHashBytes_cons, List.append_assoc, List.append_assoc] at h
    obtain ⟨hcd, h2⟩ := utf8Char_append_inj h
    obtain ⟨hs, hxy⟩ := strHashBytes_append_inj cs ds x y h2
    exact ⟨by rw [hcd, hs], hxy⟩

theorem leBytes_length (k n : Nat) : (leBytes k n).length = k := by
  induction k generalizing n with
  | zero => rfl
  | succ k ih => simp [leBytes, ih]

theorem leBytes_inj : ∀ (k m n : Nat), m < 256 ^ k → n < 256 ^ k →
    leBytes k m = leBytes k n → m = n
  | 0, m, n, hm, hn, _ => by
    have h1 : (256 : Nat) ^ 0 = 1 := pow_zero 256
    omega
  | k + 1, m, n, hm, hn, h => by
    simp only [leBytes, List.cons.injEq] at h
    obtain ⟨h1, h2⟩ := h
    have hps : (256 : Nat) ^ (k + 1) = 256 ^ k * 256 := pow_succ 256 k
    have hm' : m / 256 < 256 ^ k := (Nat.div_lt_iff_lt_mul (by norm_num)).mpr (hps ▸ hm)
    have hn' : n / 256 < 256 ^ k := (Nat.div_lt_iff_lt_mul (by norm_num)).mpr (hps ▸ hn)
    have hq := leBytes_inj k (m / 256) (n / 256) hm' hn' h2
    omega

theorem boolByte_inj {a b : Bool} (h : boolByte a = boolByte b) : a = b := by
  cases a <;> cases b <;> simp_all [boolByte]

theorem Value.discr_lt (v : Value) : v.discr < 6 := by
  cases v <;> simp [Value.discr]

theorem variableHashBytes_ne_nil (v : Variable) : variableHashBytes v ≠ [] := by
  simp [variableHashBytes, strHashBytes]

theorem u32le_length (n : Nat) : (u32le n).length = 4 := leBytes_length 4 _

theorem u64le_length (n : Nat) : (u64le n).length = 8 := leBytes_length 8 _

theorem variableHashBytes_append_inj {v w : Variable} {x y : List Nat}
    (hv : v.id < 2 ^ 32) (hw : w.id < 2 ^ 32)
    (h : variableHashBytes v ++ x = variableHashBytes w ++ y) :
    variableFingerprintTuple v = variableFingerprintTuple w ∧ x = y := by
  unfold variableHashBytes at h
  simp only [List.append_assoc, List.singleton_append] at h
  obtain ⟨hkey, h⟩ := strHashBytes_append_inj _ _ _ _ h
  obtain ⟨hro, h⟩ := List.cons.inj h
  obtain ⟨h32, h⟩ := List.append_inj h ((u32le_length v.id).trans (u32le_length w.id).symm)
  obtain ⟨hexp, h⟩ := List.cons.inj h
  obtain ⟨h64, hxy⟩ := List.append_inj h
    ((u64le_length v.value.discr).trans (u64le_length w.value.discr).symm)
  have hid : v.id = w.id := by
    have h1 := leBytes_inj 4 (v.id % 2 ^ 32) (w.id % 2 ^ 32)
      (Nat.mod_lt _ (by norm_num)) (Nat.mod_lt _ (by norm_num)) h32
    omega
  have hd : v.value.discr = w.value.discr := by
    have hvd := Value.discr_lt v.value
    have hwd := Value.discr_lt w.value
    have h1 := leBytes_inj 8 (v.value.discr % 2 ^ 64) (w.value.discr % 2 ^ 64)
      (Nat.mod_lt _ (by norm_num)) (Nat.mod_lt _ (by norm_num)) h64
    omega
  refine ⟨?_, hxy⟩
  simp [variableFingerprintTuple, hkey, boolByte_inj hro, hid, boolByte_inj hexp, hd]

theorem fingerprintHashInput_inj : ∀ (l1 l2 : List (Nat × Variable)),
    (∀ p ∈ l1, p.2.id < 2 ^ 32) → (∀ p ∈ l2, p.2.id < 2 ^ 32) →
    fingerprintHashInput l1 = fingerprintHashInput l2 →
    fingerprintTuples l1 = fingerprintTuples l2
  | [], [], _, _, _ => rfl
  | [], q :: l2, _, _, h => by
    exfalso
    simp only [fingerprintHashInput, List.map_nil, List.flatten_nil, List.map_cons,
      List.flatten_cons] at h
    rcases he : variableHashBytes q.2 with _ | ⟨b, bs⟩
    · exact variableHashBytes_ne_nil q.2 he
    · rw [he] at h
      simp at h
  | p :: l1, [], _, _, h => by
    exfalso
    simp only [fingerprintHashInput, List.map_nil, List.flatten_nil, List.map_cons,
      List.flatten_cons] at h
    rcases he : variableHashBytes p.2 with _ | ⟨b, bs⟩
    · exact variableHashBytes_ne_nil p.2 he
    · rw [he] at h
      simp at h
  | p :: l1, q :: l2, h1, h2, h => by
    simp only [fingerprintHashInput, List.map_cons, List.flatten_cons] at h
    obtain ⟨ht, hrest⟩ := variableHashBytes_append_inj
      (h1 p (List.mem_cons_self p l1)) (h2 q (List.mem_cons_self q l2)) h
    have htl := fingerprintHashInput_inj l1 l2
      (fun r hr => h1 r (List.mem_cons_of_mem p hr))
      (fun r hr => h2 r (List.mem_cons_of_mem q hr)) hrest
    show variableFingerprintTuple p.2 :: fingerprintTuples l1 =
      variableFingerprintTuple q.2 :: fingerprintTuples l2
    rw [ht, htl]

theorem variableHashBytes_eq_of_tuple {v w : Variable}
    (h : variableFingerprintTuple v = variableFingerprintTuple w) :
    variableHashBytes v = variableHashBytes w := by
  obtain ⟨h1, h2, h3, h4, h5⟩ : v.key = w.key ∧ v.read_only = w.read_only ∧ v.id = w.id ∧
      v.experimental = w.experimental ∧ v.value.discr = w.value.discr := by
    simpa [variableFingerprintTuple, Prod.ext_iff] using h
  simp [variableHashBytes, h1, h2, h3, h4, h5]

theorem hashInput_eq_of_tuples : ∀ (l1 l2 : List (Nat × Variable)),
    fingerprintTuples l1 = fingerprintTuples l2 →
    fingerprintHashInput l1 = fingerprintHashInput l2
  | [], [], _ => rfl
  | [], q :: l2, h => by simp [fingerprintTuples] at h
  | p :: l1, [], h => by simp [fingerprintTuples] at h
  | p :: l1, q :: l2, h => by
    simp only [fingerprintTuples, List.map_cons, List.cons.injEq] at h
    show variableHashBytes p.2 ++ fingerprintHashInput l1 =
      variableHashBytes q.2 ++ fingerprintHashInput l2
    rw [variableHashBytes_eq_of_tuple h.1, hashInput_eq_of_tuples l1 l2 h.2]

theorem fingerprintTuples_map_value (l : List (Nat × Variable)) (f : Value → Value)
    (g : Int → Int) (hf : ∀ val, (f val).discr = val.discr) :
    fingerprintTuples (l.map fun p =>
      (p.1, { p.2 with value := f p.2.value, last_value_change := g p.2.last_value_change })) =
      fingerprintTuples l := by
  induction l with
  | nil => rfl
  | cons p l ih =>
    simp only [List.map_cons, fingerprintTuples, variableFingerprintTuple, hf] at ih ⊢
    rw [ih]

theorem joinDots_splitOnDot (s : Str) : joinDots (splitOnDot s) = s := by
  induction s with
  | nil => rfl
  | cons c rest ih =>
    by_cases hc : c = '.'
    · subst hc
      have hstep : splitOnDot ('.' :: rest) = [] :: splitOnDot rest := by
        simp [splitOnDot]
      rw [hstep]
      rcases h : splitOnDot rest with _ | ⟨s', ss⟩
      · exact absurd h (splitOnDot_ne_nil rest)
      · rw [h] at ih
        rw [show joinDots ([] :: s' :: ss) = '.' :: joinDots (s' :: ss) from rfl, ih]
    · simp only [splitOnDot, hc, ite_false, if_false]
      rcases h : splitOnDot rest with _ | ⟨s', ss⟩
      · exact absurd h (splitOnDot_ne_nil rest)
      · rw [h] at ih
        rcases ss with _ | ⟨t, ts⟩
        · simp only [joinDots] at ih ⊢
          rw [ih]
        · rw [← ih]
          rfl

theorem mem_parents_of_decomp (a rest : Str) :
    a ∈ get_all_parent_paths (a ++ '.' :: rest) := by
  unfold get_all_parent_paths
  rw [splitOnDot_append_dot]
  have ha := splitOnDot_ne_nil a
  have hr := splitOnDot_ne_nil rest
  have h1 : 1 ≤ (splitOnDot a).length := List.length_pos.mpr ha
  have h2 : 1 ≤ (splitOnDot rest).length := List.length_pos.mpr hr
  refine List.mem_map.mpr ⟨(splitOnDot a).length - 1, ?_, ?_⟩
  · refine List.mem_range.mpr ?_
    rw [List.length_append]
    omega
  · rw [show (splitOnDot a).length - 1 + 1 = (splitOnDot a).length by omega]
    rw [List.take_left]
    exact joinDots_splitOnDot a

theorem validateLoop1_ok : ∀ (defs : List VariableDefinitionT) (ids : List Nat)
    (paths : List Str) (out : List Str),
    validateLoop1 defs ids paths = .ok out →
    ((defs.map fun v => v.id).Nodup ∧ ∀ i ∈ ids, i ∉ defs.map fun v => v.id) ∧
    ((defs.map fun v => v.key).Nodup ∧ ∀ k ∈ paths, k ∉ defs.map fun v => v.key) ∧
    (∀ k, k ∈ out ↔ k ∈ paths ∨ k ∈ defs.map fun v => v.key)
  | [], ids, paths, out, h => by
    injection h with h
    subst h
    simp
  | v :: rest, ids, paths, out, h => by
    simp only [validateLoop1] at h
    rcases hv : v.validate with e | u
    · rw [hv] at h
      cases h
    · cases u
      rw [hv] at h
      by_cases hid : v.id ∈ ids
      · rw [if_pos hid] at h
        cases h
      · rw [if_neg hid] at h
        by_cases hkey : v.key ∈ paths
        · rw [if_pos hkey] at h
          cases h
        · rw [if_neg hkey] at h
          obtain ⟨⟨hidnd, hidacc⟩, ⟨hknd, hkacc⟩, hout⟩ :=
            validateLoop1_ok rest (v.id :: ids) (v.key :: paths) out h
          refine ⟨⟨?_, ?_⟩, ⟨?_, ?_⟩, ?_⟩
          · simp only [List.map_cons]
            exact List.nodup_cons.mpr ⟨hidacc v.id (List.mem_cons_self v.id ids), hidnd⟩
          · intro i hi
            simp only [List.map_cons, List.mem_cons]
            rintro (rfl | hmem)
            · exact hid hi
            · exact hidacc i (List.mem_cons_of_mem v.id hi) hmem
          · simp only [List.map_cons]
            exact List.nodup_cons.mpr ⟨hkacc v.key (List.mem_cons_self v.key paths), hknd⟩
          · intro k hk
            simp only [List.map_cons, List.mem_cons]
            rintro (rfl | hmem)
            · exact hkey hk
            · exact hkacc k (List.mem_cons_of_mem v.key hk) hmem
          · intro k
            rw [hout k]
            simp only [List.mem_cons, List.map_cons]
            tauto

theorem validateLoop2_ok (paths : List Str) : ∀ (defs : List VariableDefinitionT),
    validateLoop2 paths defs = .ok () →
    ∀ v ∈ defs, ∀ parent ∈ get_all_parent_paths v.key, parent ∉ paths
  | [], _, v, hv => absurd hv (List.not_mem_nil v)
  | w :: rest, h, v, hv => by
    simp only [validateLoop2] at h
    by_cases hleaf : is_variable_added_to_leaf_node paths w.key = true
    · rw [if_pos hleaf] at h
      cases h
    · rw [if_neg hleaf] at h
      rcases List.mem_cons.mp hv with rfl | hmem
      · intro parent hparent hmem'
        apply hleaf
        unfold is_variable_added_to_leaf_node
        exact List.any_eq_true.mpr ⟨parent, hparent, by simpa using hmem'⟩
      · exact validateLoop2_ok paths rest h v hmem

theorem split_vars_changed_event (p : Str) (hdot : '.' ∉ p) :
    splitOnDot (vars_changed_event p) =
      [str "v1", str "loc", p, str "vars", str "evt", str "changed"] := by
  unfold vars_changed_event
  rw [splitOnDot_append_dot (str "v1"), splitOnDot_append_dot (str "loc"),
    splitOnDot_append_dot p, splitOnDot_no_dot p hdot]
  rfl

theorem split_read_variables_query (p : Str) (hdot : '.' ∉ p) :
    splitOnDot (read_variables_query p) =
      [str "v1", str "loc", p, str "vars", str "qry", str "read"] := by
  unfold read_variables_query
  rw [splitOnDot_append_dot (str "v1"), splitOnDot_append_dot (str "loc"),
    splitOnDot_append_dot p, splitOnDot_no_dot p hdot]
  rfl

theorem split_write_variables_command (p : Str) (hdot : '.' ∉ p) :
    splitOnDot (write_variables_command p) =
      [str "v1", str "loc", p, str "vars", str "cmd", str "write"] := by
  unfold write_variables_command
  rw [splitOnDot_append_dot (str "v1"), splitOnDot_append_dot (str "loc"),
    splitOnDot_append_dot p, splitOnDot_no_dot p hdot]
  rfl

theorem split_provider_changed_event (p : Str) (hdot : '.' ∉ p) :
    splitOnDot (provider_changed_event p) =
      [str "v1", str "loc", p, str "def", str "evt", str "changed"] := by
  unfold provider_changed_event
  rw [splitOnDot_append_dot (str "v1"), splitOnDot_append_dot (str "loc"),
    splitOnDot_append_dot p, splitOnDot_no_dot p hdot]
  rfl

theorem split_registry_read_query (p : Str) (hdot : '.' ∉ p) :
    splitOnDot (registry_provider_definition_read_query p) =
      [str "v1", str "loc", str "registry", str "providers", p,
        str "def", str "qry", str "read"] := by
  unfold registry_provider_definition_read_query
  rw [splitOnDot_append_dot (str "v1"), splitOnDot_append_dot (str "loc"),
    splitOnDot_append_dot (str "registry"), splitOnDot_append_dot (str "providers"),
    splitOnDot_append_dot p, splitOnDot_no_dot p hdot]
  rfl

theorem split_registry_changed_event (p : Str) (hdot : '.' ∉ p) :
    splitOnDot (registry_provider_definition_changed_event p) =
      [str "v1", str "loc", str "registry", str "providers", p,
        str "def", str "evt", str "changed"] := by
  unfold registry_provider_definition_changed_event
  rw [splitOnDot_append_dot (str "v1"), splitOnDot_append_dot (str "loc"),
    splitOnDot_append_dot (str "registry"), splitOnDot_append_dot (str "providers"),
    splitOnDot_append_dot p, splitOnDot_no_dot p hdot]
  rfl

theorem check_vvt_error_eq (v : VariableValueT) (d : VariableDataType) (e : ConsumerError)
    (h : check_variable_value_type v d = .error e) : e = .InvalidValueType := by
  cases v <;> simp only [check_variable_value_type] at h <;>
    (try split at h) <;> simp_all

theorem checkWriteItems_ok_iff (defs : List (Nat × VariableDefinitionT))
    (l : List VariableT) :
    checkWriteItems defs l = .ok () ↔
      ∀ var ∈ l, ∃ d, defsGet var.id defs = some d ∧
        d.access_type = VariableAccessType.READ_WRITE ∧
        check_variable_value_type var.value d.data_type = .ok () := by
  induction l with
  | nil => simp [checkWriteItems]
  | cons var rest ih =>
    simp only [checkWriteItems]
    rcases h : defsGet var.id defs with _ | d
    · simp [List.forall_mem_cons, h]
    · by_cases ha : d.access_type = VariableAccessType.READ_WRITE
      · rcases hv : check_variable_value_type var.value d.data_type with e | u
        · simp [List.forall_mem_cons, h, ha, hv]
        · cases u
          simp [List.forall_mem_cons, h, ha, hv, ih]
      · simp [List.forall_mem_cons, h, ha]

theorem checkWriteItems_error_validation (defs : List (Nat × VariableDefinitionT))
    (l : List VariableT) (e : ConsumerError)
    (h : checkWriteItems defs l = .error e) : e.isValidation = true := by
  induction l with
  | nil => simp [checkWriteItems] at h
  | cons var rest ih =>
    simp only [checkWriteItems] at h
    rcases hd : defsGet var.id defs with _ | d
    · rw [hd] at h
      injection h with h
      rw [← h]
      rfl
    · rw [hd] at h
      by_cases ha : d.access_type = VariableAccessType.READ_WRITE
      · simp only [ha, ne_eq, not_true_eq_false, ite_false, if_false] at h
        rcases hv : check_variable_value_type var.value d.data_type with e' | u
        · rw [hv] at h
          injection h with h
          rw [← h, check_vvt_error_eq _ _ _ hv]
          rfl
        · cases u
          rw [hv] at h
          exact ih h
      · simp only [ha, ne_eq, not_false_eq_true, ite_true, if_true] at h
        injection h with h
        rw [← h]
        rfl

/-! ### Claim theorems -/

/-- C8: for every host timestamp, the encoded wire form has
`0 ≤ nanos < 10^9` (when the truncating seconds/nanoseconds decomposition
has negative nanoseconds, one second is borrowed: `seconds - 1`,
`nanos + 10^9`), and decoding the encoded form returns exactly the original
instant. -/
theorem timestamp_codec_roundtrip_c8 (x : Int) :
    0 ≤ (timestampToWire x).nanos ∧ (timestampToWire x).nanos < 1000000000 ∧
    timestampFromWire (timestampToWire x) = x ∧
    (x.tmod 1000000000 < 0 →
      (timestampToWire x).seconds = x.tdiv 1000000000 - 1 ∧
      (timestampToWire x).nanos = x.tmod 1000000000 + 1000000000) := by
  have h1 := tmod_lower_bound x
  have h2 := tmod_upper_bound x
  have h3 := tdiv_tmod_eq x
  simp only [timestampToWire, timestampFromWire]
  split
  next h =>
    dsimp only
    exact ⟨by omega, by omega, by omega, fun _ => ⟨rfl, rfl⟩⟩
  next h =>
    dsimp only
    exact ⟨by omega, by omega, by omega, fun hc => absurd hc h⟩

/-- Witness for C8 at the instant one and a half seconds before the epoch
(the borrow case). -/
theorem timestamp_codec_roundtrip_c8_witness :
    0 ≤ (timestampToWire (-1500000000)).nanos ∧
    (timestampToWire (-1500000000)).nanos < 1000000000 ∧
    timestampFromWire (timestampToWire (-1500000000)) = -1500000000 ∧
    ((-1500000000 : Int).tmod 1000000000 < 0 →
      (timestampToWire (-1500000000)).seconds = (-1500000000 : Int).tdiv 1000000000 - 1 ∧
      (timestampToWire (-1500000000)).nanos =
        (-1500000000 : Int).tmod 1000000000 + 1000000000) :=
  timestamp_codec_roundtrip_c8 (-1500000000)

/-- C7 counterexample: the claim that the lookup key hash
(`VariableKey::from`, an `FxHasher`) and the hash family of the catalogue
fingerprint (`calc_variables_hash`, a `DefaultHasher`, i.e. SipHash-1-3)
agree on every key string is false: they already differ on the key "a". -/
theorem key_hash_families_differ_c7_counterexample :
    ¬ ∀ s : Str, variableKeyHash s = fingerprintKeyHash s :=
  fun h => absurd (h (str "a")) (by decide)

/-- C7 (amended): the hash used for pre-hashed key lookup
(`rustc_hash::FxHasher` in src/consumer/variable_key.rs) and the hash used
for the catalogue fingerprint (`std::collections::hash_map::DefaultHasher`
in src/variable/mod.rs) are two different hash functions, not one hash
family used process-wide. -/
theorem key_hash_families_differ_c7 : variableKeyHash ≠ fingerprintKeyHash :=
  fun h => absurd (congrFun h (str "a")) (by decide)

/-- C2 counterexample: an item of a fingerprint-matching write command
whose id is known and whose target is writable — so it survives the two
drop conditions the claim lists — is nevertheless not delivered to the
subscriber whose id set contains it, because its value union is `NONE`;
`handle_write` produces no delivery at all. -/
theorem handle_write_c2_counterexample :
    cmdC2.variables_.provider_definition_fingerprint = stC2.current_fingerprint ∧
    cmdC2.variables_.items =
      some [{ quality := .GOOD, id := 0, value := .NONE, timestamp := none }] ∧
    assocGet 0 stC2.vars = some rwVarC2 ∧
    rwVarC2.read_only = false ∧
    stC2.write_event_notiers = [{ ids := [0], alive := true }] ∧
    handle_write stC2 (some cmdC2) = (stC2, []) := by
  refine ⟨rfl, rfl, rfl, rfl, rfl, ?_⟩
  decide

/-- C2 (amended): a write command whose fingerprint differs from the
worker's current fingerprint notifies nobody and changes no state; one
without items likewise; otherwise each item whose id is unknown, whose
target is read-only, or whose value union carries no payload is dropped,
and every surviving item is delivered (with the requested value) to
exactly those live subscribers whose id set contains the item's id,
independently of the dropped items. -/
theorem handle_write_c2 (st : ProviderWorkerState) (cmd : WriteVariablesCommandT) :
    (cmd.variables_.provider_definition_fingerprint ≠ st.current_fingerprint →
      handle_write st (some cmd) = (st, [])) ∧
    (cmd.variables_.items = none → handle_write st (some cmd) = (st, [])) ∧
    (∀ items, cmd.variables_.items = some items →
      cmd.variables_.provider_definition_fingerprint = st.current_fingerprint →
      (handle_write st (some cmd)).2 = writeDeliveriesSpec st items) := by
  refine ⟨fun h => ?_, fun h => ?_, fun items hitems hfp => ?_⟩
  · simp [handle_write, h]
  · by_cases hf : cmd.variables_.provider_definition_fingerprint = st.current_fingerprint
    · simp [handle_write, hf, h]
    · simp [handle_write, hf]
  · simp only [handle_write, hfp, ne_eq, not_true_eq_false, if_false, Bool.false_eq_true,
      ite_false, hitems]
    unfold writeDeliveriesSpec
    rw [← handleWriteItems_eq_surviving]
    congr 1
    funext p
    by_cases ha : p.2.alive <;>
      by_cases he :
        ((handleWriteItems st items).filter fun var => p.2.ids.contains var.id).isEmpty <;>
      simp [ha, he]

/-- Witness for C2 at the fixture state: the command with matching
fingerprint and a single `NONE`-valued item yields the spec deliveries
(none at all). -/
theorem handle_write_c2_witness :
    (handle_write stC2 (some cmdC2)).2 =
      writeDeliveriesSpec stC2
        [{ quality := .GOOD, id := 0, value := .NONE, timestamp := none }] :=
  (handle_write_c2 stC2 cmdC2).2.2
    [{ quality := .GOOD, id := 0, value := .NONE, timestamp := none }] rfl rfl

/-- C10: `handle_write` never mutates the variable table or the current
fingerprint, for every incoming message (malformed, fingerprint-mismatched
or delivered); the only state it may change is the subscriber list, and
there only by removing dead sinks: the result is a sublist of the
original, and every notifier whose sink is still open keeps its exact
multiplicity, so each removed entry has a closed sink. -/
theorem handle_write_frame_c10 (st : ProviderWorkerState)
    (msg : Option WriteVariablesCommandT) :
    (handle_write st msg).1.vars = st.vars ∧
    (handle_write st msg).1.current_fingerprint = st.current_fingerprint ∧
    List.Sublist (handle_write st msg).1.write_event_notiers st.write_event_notiers ∧
    (∀ n : WriteNotifier, n.alive = true →
      (handle_write st msg).1.write_event_notiers.count n =
        st.write_event_notiers.count n) := by
  match msg with
  | none => exact ⟨rfl, rfl, List.Sublist.refl _, fun n _ => rfl⟩
  | some cmd =>
    by_cases hf : cmd.variables_.provider_definition_fingerprint = st.current_fingerprint
    · match hitems : cmd.variables_.items with
      | none =>
        have hres : handle_write st (some cmd) = (st, []) := by
          simp [handle_write, hf, hitems]
        rw [hres]
        exact ⟨rfl, rfl, List.Sublist.refl _, fun n _ => rfl⟩
      | some items =>
        refine ⟨?_, ?_, ?_, ?_⟩ <;>
          simp only [handle_write, hf, ne_eq, not_true_eq_false, if_false, ite_false, hitems]
        · exact (by simpa [List.enum] using
            enumFrom_filter_map_snd_sublist st.write_event_notiers 0 _)
        · intro n hn
          simp only [List.enum]
          refine enumFrom_filter_count (fun x => x.alive = true)
            st.write_event_notiers 0 _ ?_ n hn
          intro p hp halive
          rw [Bool.not_eq_true']
          by_contra hc
          rw [Bool.not_eq_false] at hc
          obtain ⟨q, hq, hfn⟩ := List.mem_filterMap.mp (List.mem_of_elem_eq_true hc)
          split_ifs at hfn with h1 h2
          have hqp := enumFrom_fst_inj hq hp (Option.some.inj hfn)
          exact h2 (by rw [hqp]; exact halive)
    · have hres : handle_write st (some cmd) = (st, []) := by
        simp [handle_write, hf]
      rw [hres]
      exact ⟨rfl, rfl, List.Sublist.refl _, fun n _ => rfl⟩

/-- Witness for C10 at the fixture state with one dead and one live
subscriber: the table and fingerprint are untouched, the notifier list
only loses entries, and the live notifier keeps its multiplicity. -/
theorem handle_write_frame_c10_witness :
    (handle_write stC10 (some cmdC10)).1.vars = stC10.vars ∧
    (handle_write stC10 (some cmdC10)).1.current_fingerprint = stC10.current_fingerprint ∧
    List.Sublist (handle_write stC10 (some cmdC10)).1.write_event_notiers
      stC10.write_event_notiers ∧
    (handle_write stC10 (some cmdC10)).1.write_event_notiers.count
        { ids := [0], alive := true } =
      stC10.write_event_notiers.count { ids := [0], alive := true } :=
  ⟨(handle_write_frame_c10 stC10 (some cmdC10)).1,
   (handle_write_frame_c10 stC10 (some cmdC10)).2.1,
   (handle_write_frame_c10 stC10 (some cmdC10)).2.2.1,
   (handle_write_frame_c10 stC10 (some cmdC10)).2.2.2 { ids := [0], alive := true } rfl⟩

/-- C4: `update_variable_values` errors — handing back the untouched
table — exactly when some item has an unknown id or a value discriminant
differing from the stored one; ids outside the update set never change;
and when all items pass, each update's value and timestamp are committed. -/
theorem update_variable_values_c4 (st : ProviderWorkerState) (updates : List Variable) :
    ((∃ u ∈ updates, assocGet u.id st.vars = none ∨
        ∃ cur, assocGet u.id st.vars = some cur ∧ u.value.discr ≠ cur.value.discr) →
      ∃ e, update_variable_values st updates = (.error e, st)) ∧
    ((∀ u ∈ updates, ∃ cur, assocGet u.id st.vars = some cur ∧
        u.value.discr = cur.value.discr) →
      (update_variable_values st updates).1 = .ok ()) ∧
    (∀ id, (∀ u ∈ updates, u.id ≠ id) →
      assocGet id (update_variable_values st updates).2.vars = assocGet id st.vars) ∧
    ((updates.map fun u => u.id).Nodup →
      (∀ u ∈ updates, ∃ cur, assocGet u.id st.vars = some cur ∧
        u.value.discr = cur.value.discr) →
      ∀ u ∈ updates, assocGet u.id (update_variable_values st updates).2.vars =
        (assocGet u.id st.vars).map fun cur =>
          { cur with value := u.value, last_value_change := u.last_value_change }) := by
  refine ⟨fun hbad => ?_, fun hgood => ?_, fun id hid => ?_, fun hnd hgood u hu => ?_⟩
  · rcases h : checkUpdateVars st.vars updates with _ | e
    · exfalso
      rcases hbad with ⟨u, hu, hcase⟩
      rcases (checkUpdateVars_eq_none_iff st.vars updates).mp h u hu with ⟨cur, hcur, hd⟩
      rcases hcase with hnone | ⟨cur', hcur', hne⟩
      · rw [hnone] at hcur
        cases hcur
      · rw [hcur'] at hcur
        cases hcur
        exact hne hd
    · exact ⟨e, by simp [update_variable_values, h]⟩
  · rw [update_variable_values, (checkUpdateVars_eq_none_iff st.vars updates).mpr hgood]
  · rcases h : checkUpdateVars st.vars updates with _ | e
    · simp only [update_variable_values, h]
      exact assocGet_commit_notMem updates st.vars id hid
    · simp [update_variable_values, h]
  · rw [update_variable_values, (checkUpdateVars_eq_none_iff st.vars updates).mpr hgood]
    exact assocGet_commit_mem updates st.vars hnd u hu

/-- C1 counterexample (proving the negation of the five-field sensitivity
part): "changing any of these five fields of any variable changes the
fingerprint" is false, because the fingerprint is a 64-bit hash while
there are infinitely many keys — two single-variable tables differing only
in the key share the same fingerprint. -/
theorem fingerprint_sensitivity_fails_c1_counterexample :
    ∃ k1 k2 : Str, k1 ≠ k2 ∧
      calc_variables_hash [(0, keyedVariable k1)] =
        calc_variables_hash [(0, keyedVariable k2)] := by
  obtain ⟨k1, k2, hne, heq⟩ := Finite.exists_ne_map_eq_of_infinite
    fun k : Str =>
      (⟨calc_variables_hash [(0, keyedVariable k)], siphash13_lt _⟩ : Fin (2 ^ 64))
  exact ⟨k1, k2, hne, by simpa using congrArg Fin.val heq⟩

/-- C1 (amended): the catalogue fingerprint is a deterministic function of
exactly the tuple sequence `(key, read_only, id, experimental,
discriminant)` in the map's order: tables with equal tuple sequences hash
equal; changing only value payloads (keeping their discriminants) and
timestamps never changes the fingerprint; and within `u32` ids the
hasher's input byte stream determines the tuple sequence (a change of any
of the five fields changes the hasher input, though the 64-bit hash of
two different inputs may collide). -/
theorem fingerprint_tuple_function_c1 :
    (∀ l1 l2 : List (Nat × Variable), fingerprintTuples l1 = fingerprintTuples l2 →
      calc_variables_hash l1 = calc_variables_hash l2) ∧
    (∀ (l : List (Nat × Variable)) (f : Value → Value) (g : Int → Int),
      (∀ val, (f val).discr = val.discr) →
      calc_variables_hash (l.map fun p =>
        (p.1, { p.2 with
          value := f p.2.value
          last_value_change := g p.2.last_value_change })) =
        calc_variables_hash l) ∧
    (∀ l1 l2 : List (Nat × Variable),
      (∀ p ∈ l1, p.2.id < 2 ^ 32) → (∀ p ∈ l2, p.2.id < 2 ^ 32) →
      fingerprintHashInput l1 = fingerprintHashInput l2 →
      fingerprintTuples l1 = fingerprintTuples l2) := by
  have hhash : ∀ l1 l2 : List (Nat × Variable),
      fingerprintTuples l1 = fingerprintTuples l2 →
      calc_variables_hash l1 = calc_variables_hash l2 := fun l1 l2 h =>
    congrArg siphash13 (hashInput_eq_of_tuples l1 l2 h)
  exact ⟨hhash,
    fun l f g hf => hhash _ _ (fingerprintTuples_map_value l f g hf),
    fingerprintHashInput_inj⟩

/-- Witness for C1: flipping the boolean payload and the timestamp of the
fixture variable leaves the fingerprint unchanged, and two tables with
identical tuple sequences but different payloads hash equal. -/
theorem fingerprint_tuple_function_c1_witness :
    calc_variables_hash ([(0, rwVarC2)].map fun p =>
      (p.1, { p.2 with
        value := flipBool p.2.value
        last_value_change := (fun _ => (99 : Int)) p.2.last_value_change })) =
      calc_variables_hash [(0, rwVarC2)] :=
  fingerprint_tuple_function_c1.2.1 [(0, rwVarC2)] flipBool (fun _ => (99 : Int))
    (by intro val; cases val <;> rfl)

/-- C3: a provider definition accepted by the validator has pairwise
distinct variable ids, pairwise distinct keys, and no key that is a strict
dotted prefix (folder path) of another key. -/
theorem validator_distinct_c3 (d : ProviderDefinitionT) (defs : List VariableDefinitionT)
    (hdefs : d.variable_definitions = some defs)
    (hok : d.validate = .ok ()) :
    (defs.map fun v => v.id).Nodup ∧
    (defs.map fun v => v.key).Nodup ∧
    (∀ k1 ∈ defs.map fun v => v.key, ∀ k2 ∈ defs.map fun v => v.key,
      ∀ rest, k2 ≠ k1 ++ '.' :: rest) := by
  unfold ProviderDefinitionT.validate at hok
  rw [hdefs] at hok
  change (match validateLoop1 defs [] [] with
    | Except.error e => Except.error e
    | Except.ok paths => validateLoop2 paths defs) = Except.ok () at hok
  rcases h1 : validateLoop1 defs [] [] with e | paths
  · rw [h1] at hok
    cases hok
  · rw [h1] at hok
    obtain ⟨⟨hid, -⟩, ⟨hkey, -⟩, hout⟩ := validateLoop1_ok defs [] [] paths h1
    refine ⟨hid, hkey, fun k1 hk1 k2 hk2 rest hk => ?_⟩
    obtain ⟨v2, hv2, hv2k⟩ := List.mem_map.mp hk2
    have hk1paths : k1 ∈ paths := (hout k1).mpr (Or.inr hk1)
    have hparent : k1 ∈ get_all_parent_paths v2.key := by
      rw [hv2k, hk]
      exact mem_parents_of_decomp k1 rest
    exact validateLoop2_ok paths defs hok v2 hv2 k1 hparent hk1paths

/-- Witness for C3 at the concrete accepted definition with keys "a" and
"b.c". -/
theorem validator_distinct_c3_witness :
    ([defA, defB].map fun v => v.id).Nodup ∧
    ([defA, defB].map fun v => v.key).Nodup ∧
    (∀ k1 ∈ [defA, defB].map fun v => v.key, ∀ k2 ∈ [defA, defB].map fun v => v.key,
      ∀ rest, k2 ≠ k1 ++ '.' :: rest) :=
  validator_distinct_c3 provDefC3 [defA, defB] rfl rfl

/-- C9 counterexample: the claimed roundtrip fails for the non-empty
provider id "a.b": the built variables-changed subject splits into
segments at every dot, and extraction returns only the first segment
"a". -/
theorem subject_roundtrip_c9_counterexample :
    get_provider_id_from_subject (vars_changed_event (str "a.b")) = .ok (str "a") ∧
    str "a" ≠ str "a.b" :=
  ⟨rfl, by decide⟩

/-- C9 (amended): for every non-empty, dot-free provider id, applying
`get_provider_id_from_subject` to any of the six built subjects returns
the id (index 4 is selected exactly for the registry subjects, index 2
otherwise; an empty extraction is rejected). -/
theorem subject_roundtrip_c9 (p : Str) (hp : p ≠ []) (hdot : '.' ∉ p) :
    get_provider_id_from_subject (vars_changed_event p) = .ok p ∧
    get_provider_id_from_subject (read_variables_query p) = .ok p ∧
    get_provider_id_from_subject (write_variables_command p) = .ok p ∧
    get_provider_id_from_subject (provider_changed_event p) = .ok p ∧
    get_provider_id_from_subject (registry_provider_definition_read_query p) = .ok p ∧
    get_provider_id_from_subject (registry_provider_definition_changed_event p) = .ok p :=
  ⟨extract_of_split_plain _ p _ _ _ (split_vars_changed_event p hdot) hp (by decide),
   extract_of_split_plain _ p _ _ _ (split_read_variables_query p hdot) hp (by decide),
   extract_of_split_plain _ p _ _ _ (split_write_variables_command p hdot) hp (by decide),
   extract_of_split_plain _ p _ _ _ (split_provider_changed_event p hdot) hp (by decide),
   extract_of_split_registry _ p _ _ _ (split_registry_read_query p hdot) hp,
   extract_of_split_registry _ p _ _ _ (split_registry_changed_event p hdot) hp⟩

/-- Witness for C9 at the concrete provider id "prov". -/
theorem subject_roundtrip_c9_witness :
    get_provider_id_from_subject (vars_changed_event (str "prov")) = .ok (str "prov") ∧
    get_provider_id_from_subject (read_variables_query (str "prov")) = .ok (str "prov") ∧
    get_provider_id_from_subject (write_variables_command (str "prov")) = .ok (str "prov") ∧
    get_provider_id_from_subject (provider_changed_event (str "prov")) = .ok (str "prov") ∧
    get_provider_id_from_subject (registry_provider_definition_read_query (str "prov")) =
      .ok (str "prov") ∧
    get_provider_id_from_subject (registry_provider_definition_changed_event (str "prov")) =
      .ok (str "prov") :=
  subject_roundtrip_c9 (str "prov") (by decide) (by decide)

/-- C5: a consumer-side `write_variables` call in which some referenced
variable is not writable or some value member mismatches the declared
data type returns an error without reaching the publish-and-flush path
(a validation-kind error whenever the provider is online); the publish
path is reached, with exactly the given command, only when every item
passes the id, writability and type checks. -/
theorem write_variables_c5 (st : ConnectedNatsProviderState)
    (write_command : WriteVariablesCommandT) (items : List VariableT)
    (hitems : write_command.variables_.items = some items) :
    ((∃ var ∈ items, ∃ d, defsGet var.id st.cur_variable_defs = some d ∧
        (d.access_type ≠ VariableAccessType.READ_WRITE ∨
          check_variable_value_type var.value d.data_type ≠ .ok ())) →
      ∃ e, write_variables st write_command = .error e) ∧
    (st.cur_fingerprint.isSome = true →
      (∃ var ∈ items, ∃ d, defsGet var.id st.cur_variable_defs = some d ∧
        (d.access_type ≠ VariableAccessType.READ_WRITE ∨
          check_variable_value_type var.value d.data_type ≠ .ok ())) →
      ∃ e, write_variables st write_command = .error e ∧ e.isValidation = true) ∧
    (∀ out, write_variables st write_command = .ok out →
      out = write_command ∧
      ∀ var ∈ items, ∃ d, defsGet var.id st.cur_variable_defs = some d ∧
        d.access_type = VariableAccessType.READ_WRITE ∧
        check_variable_value_type var.value d.data_type = .ok ()) := by
  have hbad_ne :
      (∃ var ∈ items, ∃ d, defsGet var.id st.cur_variable_defs = some d ∧
        (d.access_type ≠ VariableAccessType.READ_WRITE ∨
          check_variable_value_type var.value d.data_type ≠ .ok ())) →
      checkWriteItems st.cur_variable_defs items ≠ .ok () := by
    rintro ⟨var, hvar, d, hd, hcase⟩ hok
    rcases (checkWriteItems_ok_iff _ _).mp hok var hvar with ⟨d', hd', ha', hv'⟩
    rw [hd] at hd'
    cases hd'
    rcases hcase with h1 | h2
    · exact h1 ha'
    · exact h2 hv'
  refine ⟨fun hbad => ?_, fun honline hbad => ?_, fun out hout => ?_⟩
  · rcases hf : st.cur_fingerprint with _ | f
    · exact ⟨.ProviderOfflineOrInvalid st.provider_id, by
        simp [write_variables, check_online, hf]⟩
    · rcases hc : checkWriteItems st.cur_variable_defs items with e | u
      · exact ⟨e, by
          simp [write_variables, check_online, check_write_command, hf, hitems, hc]⟩
      · cases u
        exact absurd hc (hbad_ne hbad)
  · rcases hf : st.cur_fingerprint with _ | f
    · rw [hf] at honline
      cases honline
    · rcases hc : checkWriteItems st.cur_variable_defs items with e | u
      · refine ⟨e, by
          simp [write_variables, check_online, check_write_command, hf, hitems, hc],
          checkWriteItems_error_validation _ _ _ hc⟩
      · cases u
        exact absurd hc (hbad_ne hbad)
  · rcases hf : st.cur_fingerprint with _ | f
    · simp [write_variables, check_online, hf] at hout
    · rcases hc : checkWriteItems st.cur_variable_defs items with e | u
      · simp [write_variables, check_online, check_write_command, hf, hitems, hc] at hout
      · cases u
        refine ⟨?_, (checkWriteItems_ok_iff _ _).mp hc⟩
        simp only [write_variables, check_online, check_write_command, hf, hitems, hc,
          Option.isSome_some, ite_true, if_true, write_variables_unchecked] at hout
        split at hout
        · cases hout
        · injection hout with h
          exact h.symm

/-- Witness for C5: writing a boolean to the read-only variable of the
online fixture connection fails with a validation-kind error. -/
theorem write_variables_c5_witness :
    ∃ e, write_variables stC5 cmdC5 = .error e ∧ e.isValidation = true :=
  (write_variables_c5 stC5 cmdC5
      [{ quality := .GOOD, id := 0, value := .Boolean true, timestamp := none }] rfl).2.1
    (by decide)
    ⟨{ quality := .GOOD, id := 0, value := .Boolean true, timestamp := none }, by simp,
      roDefC5, rfl, Or.inl (by decide)⟩

/-- C6 counterexample: an unrecognised wire discriminant (raw value 99) is
not surfaced as an `Unknown(raw)` variant — the typed models have no such
variant — and it does fail the conversion: both `TryFrom` impls return
`FlatbufferDataTypeConversionFailure`, and `VariableState::new` fails for
a variable carrying that quality. -/
theorem unknown_discriminant_fails_c6_counterexample :
    variableQualityTryFrom ⟨99⟩ = .error .FlatbufferDataTypeConversionFailure ∧
    variableTypeTryFrom ⟨99⟩ = .error .FlatbufferDataTypeConversionFailure ∧
    VariableState.new { quality := ⟨99⟩, id := 0, value := .Boolean true, timestamp := none } 0 =
      .error .FlatbufferDataTypeConversionFailure :=
  ⟨rfl, rfl, rfl⟩

/-- C6 (amended): an unrecognised wire discriminant of variable quality or
variable data type makes the typed conversion fail with
`FlatbufferDataTypeConversionFailure` (there is no `Unknown(raw)`
variant), and `VariableState::new` fails for a variable carrying such a
quality; an access type other than `READ_WRITE` does not fail but is
conflated into `read_only = true` without preserving the raw value. -/
theorem unknown_discriminant_fails_c6 (q : FbVariableQuality) (d : VariableDataType)
    (v : VariableT) (ll : VariableDefinitionT) (fallback : Int) :
    (q ≠ FbVariableQuality.BAD → q ≠ FbVariableQuality.GOOD →
      q ≠ FbVariableQuality.UNCERTAIN → q ≠ FbVariableQuality.UNCERTAIN_LAST_USABLE_VALUE →
      q ≠ FbVariableQuality.UNCERTAIN_INITIAL_VALUE →
      variableQualityTryFrom q = .error .FlatbufferDataTypeConversionFailure) ∧
    (d ≠ VariableDataType.FLOAT64 → d ≠ VariableDataType.INT64 →
      d ≠ VariableDataType.STRING → d ≠ VariableDataType.TIMESTAMP →
      d ≠ VariableDataType.DURATION → d ≠ VariableDataType.BOOLEAN →
      variableTypeTryFrom d = .error .FlatbufferDataTypeConversionFailure) ∧
    (v.quality ≠ FbVariableQuality.BAD → v.quality ≠ FbVariableQuality.GOOD →
      v.quality ≠ FbVariableQuality.UNCERTAIN →
      v.quality ≠ FbVariableQuality.UNCERTAIN_LAST_USABLE_VALUE →
      v.quality ≠ FbVariableQuality.UNCERTAIN_INITIAL_VALUE →
      ∃ e, VariableState.new v fallback = .error e) ∧
    (ll.access_type ≠ VariableAccessType.READ_WRITE →
      ∀ out, variableDefinitionTryFrom ll = .ok out → out.read_only = true) := by
  refine ⟨fun h1 h2 h3 h4 h5 => ?_, fun h1 h2 h3 h4 h5 h6 => ?_,
    fun h1 h2 h3 h4 h5 => ?_, fun hacc out hout => ?_⟩
  · simp [variableQualityTryFrom, h1, h2, h3, h4, h5]
  · simp [variableTypeTryFrom, h1, h2, h3, h4, h5, h6]
  · simp only [VariableState.new]
    rcases hv : valueFromWire v.value with _ | mv
    · exact ⟨.FlatbufferDataTypeConversionFailure, rfl⟩
    · rw [variableQualityTryFrom, if_neg h1, if_neg h2, if_neg h3, if_neg h4, if_neg h5]
      exact ⟨.FlatbufferDataTypeConversionFailure, rfl⟩
  · simp only [variableDefinitionTryFrom] at hout
    split at hout
    · cases hout
    · injection hout with h
      rw [← h]
      simpa using hacc

/-- Witness for C6 at concrete unrecognised raw values. -/
theorem unknown_discriminant_fails_c6_witness :
    variableTypeTryFrom ⟨47⟩ = .error .FlatbufferDataTypeConversionFailure ∧
    (∃ e, VariableState.new
      { quality := ⟨98⟩, id := 1, value := .Int64 5, timestamp := none } 0 = .error e) ∧
    (∀ out, variableDefinitionTryFrom
        { key := str "k", id := 0, data_type := .BOOLEAN, access_type := ⟨77⟩,
          experimental := false } = .ok out →
      out.read_only = true) :=
  ⟨(unknown_discriminant_fails_c6 ⟨98⟩ ⟨47⟩
        { quality := ⟨98⟩, id := 1, value := .Int64 5, timestamp := none }
        { key := str "k", id := 0, data_type := .BOOLEAN, access_type := ⟨77⟩,
          experimental := false } 0).2.1
      (by decide) (by decide) (by decide) (by decide) (by decide) (by decide),
   (unknown_discriminant_fails_c6 ⟨98⟩ ⟨47⟩
        { quality := ⟨98⟩, id := 1, value := .Int64 5, timestamp := none }
        { key := str "k", id := 0, data_type := .BOOLEAN, access_type := ⟨77⟩,
          experimental := false } 0).2.2.1
      (by decide) (by decide) (by decide) (by decide) (by decide),
   (unknown_discriminant_fails_c6 ⟨98⟩ ⟨47⟩
        { quality := ⟨98⟩, id := 1, value := .Int64 5, timestamp := none }
        { key := str "k", id := 0, data_type := .BOOLEAN, access_type := ⟨77⟩,
          experimental := false } 0).2.2.2
      (by decide)⟩

/-- Witness for C4 at a concrete state: a matching boolean update commits,
a type-mismatching one errors with the table unchanged. -/
theorem update_variable_values_c4_witness :
    (update_variable_values stC2
      [{ rwVarC2 with value := .boolean true, last_value_change := 5 }]).1 = .ok () ∧
    (∃ e, update_variable_values stC2 [{ rwVarC2 with value := .int 3 }] =
      (.error e, stC2)) :=
  ⟨(update_variable_values_c4 stC2 _).2.1 (by decide),
   (update_variable_values_c4 stC2 _).1 (by decide)⟩
